import Mathlib

/-!
# Email-Sender: the dispatch engine of `server.js`

A shallow embedding of `src/server.js`.

* The process-wide record `currentSendingStatus` is `SendingStatus`.
* Node runs every piece of code between two `await`s without interruption, so
  the server is a transition system whose atomic steps are the HTTP handlers,
  the signal handlers and the resumptions of `sendEmailsInBackground` after
  each `await` (`transporter.verify`, `transporter.sendMail`, `delay`).
  `step` is that transition function, `run` folds it over a schedule.
* What the outside world decides (the clock read by `addLog`, the result of
  `verify` / `sendMail`, `fs.existsSync`, a throwing `close` / `unlinkSync`)
  is an input of the step: `World` and the payload of the `Event`.
* `Sys.effects` records the calls made on the transporter and the file system,
  `Sys.origins` records, for every entry held in the log, the call site that
  wrote it; both are instrumentation and never read by the code.
-/

namespace EmailSender

/-! ## Data model -/

/-- The object pushed by `addLog` (lines 66-70). -/
structure LogEntry where
  type : String
  message : String
  timestamp : String
deriving DecidableEq, Repr

/-- The record `currentSendingStatus` (lines 51-59). -/
structure SendingStatus where
  isRunning : Bool
  total : Nat
  sent : Nat
  failed : Nat
  currentEmail : String
  logs : List LogEntry
  shouldStop : Bool
deriving DecidableEq, Repr

/-- The initial value of `currentSendingStatus` (lines 51-59). -/
def initialStatus : SendingStatus :=
  { isRunning := false, total := 0, sent := 0, failed := 0,
    currentEmail := "", logs := [], shouldStop := false }

/-- Function `addLog` (lines 64-79): push the entry, then drop the first entry
when the log holds more than 100. `timestamp` is the text the clock gives. -/
def addLog (timestamp type message : String) (st : SendingStatus) : SendingStatus :=
  let logs := st.logs ++ [{ type := type, message := message, timestamp := timestamp }]
  { st with logs := if logs.length > 100 then logs.tail else logs }

/-! ## Recipient extraction (`POST /upload-emails`, lines 179-184) -/

/-- The characters matched by `\s` in a JavaScript regular expression, which
are also the characters removed by `String.prototype.trim`. -/
def isJsSpace (c : Char) : Bool :=
  c.toNat ∈ [0x09, 0x0A, 0x0B, 0x0C, 0x0D, 0x20, 0xA0, 0x1680, 0x2028, 0x2029,
    0x202F, 0x205F, 0x3000, 0xFEFF] || (0x2000 ≤ c.toNat && c.toNat ≤ 0x200A)

/-- The character class `[^\s@]`. -/
def isAddrChar (c : Char) : Bool :=
  !isJsSpace c && c != '@'

/-- The sub-pattern `[^\s@]+`: one or more characters of the class. -/
def isAddrPart (cs : List Char) : Bool :=
  !cs.isEmpty && cs.all isAddrChar

/-- The pattern `/^[^\s@]+@[^\s@]+\.[^\s@]+$/` on a list of characters: some
`@` at position `i` and some `.` at a later position `j` cut the whole text
into three parts each matching `[^\s@]+`. -/
def matchesEmailRegex (cs : List Char) : Bool :=
  (List.range cs.length).any fun i =>
    (List.range cs.length).any fun j =>
      decide (i < j) && cs[i]? == some '@' && cs[j]? == some '.' &&
        isAddrPart (cs.take i) && isAddrPart ((cs.take j).drop (i + 1)) &&
        isAddrPart (cs.drop (j + 1))

/-- Function `isValidEmail` (lines 82-85). -/
def isValidEmail (email : String) : Bool :=
  matchesEmailRegex email.data

/-- The character class `[\n\r]`. -/
def isLineBreak (c : Char) : Bool :=
  c == '\n' || c == '\r'

/-- The worker of `split(/[\n\r]+/)`: `cur` is the piece being read
(reversed), `inRun` tells that the previous character was a separator. -/
def splitLinesAux : List Char → List Char → Bool → List (List Char)
  | [], cur, _ => [cur.reverse]
  | c :: cs, cur, inRun =>
    if isLineBreak c then
      if inRun then splitLinesAux cs [] true
      else cur.reverse :: splitLinesAux cs [] true
    else splitLinesAux cs (c :: cur) false

/-- The call `fileContent.split(/[\n\r]+/)`: the pieces between the maximal
runs of line breaks (a leading or trailing run yields an empty piece). -/
def splitLines (cs : List Char) : List (List Char) :=
  splitLinesAux cs [] false

/-- The method `String.prototype.trim`. -/
def jsTrim (cs : List Char) : List Char :=
  ((cs.dropWhile isJsSpace).reverse.dropWhile isJsSpace).reverse

/-- The method `Set.prototype.add` on the insertion-ordered content of a set. -/
def setAdd (set : List String) (x : String) : List String :=
  if x ∈ set then set else set ++ [x]

/-- The expression `[...new Set(emails)]` (line 184). -/
def uniqueOf (emails : List String) : List String :=
  emails.foldl setAdd []

/-- The lines of the uploaded text after `.map(email => email.trim())`
(lines 179-180). -/
def trimmedLines (fileContent : String) : List String :=
  (splitLines fileContent.data).map fun l => String.mk (jsTrim l)

/-- The constant `emails` (lines 179-181): the trimmed lines that are not
empty and pass `isValidEmail`. -/
def extractEmails (fileContent : String) : List String :=
  (trimmedLines fileContent).filter fun email => email != "" && isValidEmail email

/-- The constant `uniqueEmails` (line 184). -/
def uniqueEmails (fileContent : String) : List String :=
  uniqueOf (extractEmails fileContent)

/-! ## Requests, errors and effects -/

/-- The field `smtpConfig` of the request body. An absent field is the empty
string, which JavaScript treats as false just the same; `port` is the text
a template literal renders for `smtpConfig.port`. -/
structure SmtpConfig where
  host : String
  port : String
  email : String
  password : String
deriving DecidableEq, Repr

/-- The field `emailContent` of the request body. -/
structure EmailContent where
  senderName : String
  subject : String
  body : String
deriving DecidableEq, Repr

/-- The field `pdfAttachment` of the request body. -/
structure PdfAttachment where
  path : String
  originalName : String
deriving DecidableEq, Repr

/-- The parsed JSON body of `POST /send-emails` (lines 249-254); `none` is an
absent (or null) field. -/
structure Body where
  smtpConfig : Option SmtpConfig
  emailContent : Option EmailContent
  emailList : Option (List String)
  pdfAttachment : Option PdfAttachment
deriving DecidableEq, Repr

/-- The fields of a thrown error that the code reads: `error.code`,
`error.responseCode` and `error.message` (empty when absent). -/
structure JsError where
  code : Option String
  responseCode : Option Nat
  message : String
deriving DecidableEq, Repr

/-- An element of `attachments` (lines 351-354). -/
structure Attachment where
  filename : String
  path : String
deriving DecidableEq, Repr

/-- The object `mailOptions` (lines 371-377); `sender` is its field `from` and
`toAddr` its field `to`, two words Lean reserves. -/
structure MailOptions where
  sender : String
  toAddr : String
  subject : String
  html : String
  attachments : List Attachment
deriving DecidableEq, Repr

/-- The calls the job makes on the transporter and on the file system. -/
inductive Effect where
  | createTransporter
  | verify
  | sendMail (opts : MailOptions)
  | close
  | unlink (path : String)
deriving DecidableEq, Repr

/-- The call site that wrote a log entry: the `[i/total]` entry of line 369
for loop index `i`, the outcome entry of line 382 or 400 for loop index `i`,
or any other `addLog` call. -/
inductive Origin where
  | other
  | info (i : Nat)
  | outcome (i : Nat)
deriving DecidableEq, Repr

/-- Where `sendEmailsInBackground` is suspended, or how it ended. -/
inductive Phase where
  | idle
  | verifying
  | sending (i : Nat) (email : String)
  | delaying (i : Nat)
  | connectFailed
  | finished
deriving DecidableEq, Repr

/-- The parameters and local variables of `sendEmailsInBackground`. -/
structure Job where
  smtpConfig : SmtpConfig
  emailContent : EmailContent
  emailList : List String
  pdfAttachment : Option PdfAttachment
  attachments : List Attachment
deriving DecidableEq, Repr

/-- The server: the status record, the suspended job and the instrumentation. -/
structure Sys where
  status : SendingStatus
  phase : Phase
  job : Job
  effects : List Effect
  origins : List Origin
deriving DecidableEq, Repr

/-- What the outside world answers during one atomic step: `now l` is the text
of the clock read by the `addLog` call of source line `l`, `existsSync l` the
answer of `fs.existsSync` at line `l`. -/
structure World where
  now : Nat → String
  existsSync : Nat → Bool
  closeThrows : Bool
  unlinkThrows : Bool

/-- The JSON answer of a handler. -/
structure Response where
  code : Nat
  success : Bool
  message : String
  emails : List String := []
deriving DecidableEq, Repr

/-- The server at start-up. -/
def init : Sys :=
  { status := initialStatus, phase := .idle,
    job := { smtpConfig := ⟨"", "", "", ""⟩, emailContent := ⟨"", "", ""⟩,
             emailList := [], pdfAttachment := none, attachments := [] },
    effects := [], origins := [] }

/-- A call of `addLog` at source line `line`, with the origin recorded beside
the log and trimmed with it. -/
def Sys.log (w : World) (line : Nat) (o : Origin) (type message : String) (s : Sys) : Sys :=
  { s with
    status := addLog (w.now line) type message s.status
    origins := if (s.origins ++ [o]).length > 100 then (s.origins ++ [o]).tail
               else s.origins ++ [o] }

/-- A call made on the transporter or the file system. -/
def Sys.emit (e : Effect) (s : Sys) : Sys :=
  { s with effects := s.effects ++ [e] }

/-! ## The background job `sendEmailsInBackground` (lines 304-438) -/

/-- The text of `errorMsg` chosen in the `catch` of a failed send
(lines 386-398). -/
def sendErrorMsg (error : JsError) : String :=
  if error.code = some "EMESSAGE" then "خطأ في محتوى الرسالة"
  else if error.code = some "EENVELOPE" then "خطأ في عنوان الإيميل"
  else if error.responseCode = some 550 then "عنوان الإيميل غير موجود"
  else if error.responseCode = some 554 then "رسالة مرفوضة من الخادم"
  else if error.message ≠ "" then error.message
  else "خطأ غير معروف"

/-- The text of `errorMessage` chosen in the `catch` of a failed connection
(lines 330-341). -/
def connectErrorMsg (error : JsError) : String :=
  if error.code = some "EAUTH" then "خطأ في المصادقة: تحقق من الإيميل وكلمة المرور"
  else if error.code = some "ECONNREFUSED" then "رفض الاتصال: تحقق من عنوان الخادم والمنفذ"
  else if error.code = some "ETIMEDOUT" then "انتهت مهلة الاتصال: تحقق من الاتصال بالإنترنت"
  else if error.message ≠ "" then "خطأ في SMTP: " ++ error.message
  else "فشل الاتصال بخادم SMTP"

/-- The message of line 369. -/
def infoMsg (i total : Nat) (email : String) : String :=
  "[" ++ toString (i + 1) ++ "/" ++ toString total ++ "] إرسال إلى: " ++ email

/-- The message of line 382. -/
def successMsg (email : String) : String :=
  "✅ تم الإرسال بنجاح إلى: " ++ email

/-- The message of line 400. -/
def failureMsg (email errorMsg : String) : String :=
  "❌ فشل الإرسال إلى: " ++ email ++ " - " ++ errorMsg

/-- The message of line 362. -/
def stopNotice : String :=
  "تم إيقاف العملية بواسطة المستخدم"

/-- The object `mailOptions` built at lines 371-377. -/
def mailOptions (job : Job) (email : String) : MailOptions :=
  { sender := String.singleton (Char.ofNat 34) ++
      (if job.emailContent.senderName ≠ "" then job.emailContent.senderName else "المرسل") ++
      String.singleton (Char.ofNat 34) ++ " <" ++ job.smtpConfig.email ++ ">"
    toAddr := email
    subject := job.emailContent.subject
    html := job.emailContent.body
    attachments := job.attachments }

/-- The `catch` block of lines 329-346: one error entry, `isRunning = false`,
`return`. -/
def connectFailed (w : World) (error : JsError) (s : Sys) : Sys :=
  let s := s.log w 343 .other "error" (connectErrorMsg error)
  { s with status := { s.status with isRunning := false }, phase := .connectFailed }

/-- Lines 409-417: close the transporter (`transporter` is defined whenever
the loop was reached) and log it unless `close` threw. -/
def closeTransport (w : World) (s : Sys) : Sys :=
  let s := s.emit .close
  if w.closeThrows then s else s.log w 413 .other "info" "تم إغلاق الاتصال بخادم SMTP"

/-- Lines 419-429: delete the temporary attachment file. -/
def cleanup (w : World) (s : Sys) : Sys :=
  match s.job.pdfAttachment with
  | some pdf =>
    if pdf.path ≠ "" && w.existsSync 422 then
      let s := s.emit (.unlink pdf.path)
      if w.unlinkThrows then s else s.log w 424 .other "info" "تم حذف الملف المؤقت"
    else s
  | none => s

/-- Lines 431-437: clear `isRunning` and write the summary. -/
def summary (w : World) (s : Sys) : Sys :=
  let s := { s with status := { s.status with isRunning := false }, phase := .finished }
  if s.status.shouldStop then
    s.log w 434 .other "info"
      ("🛑 تم إيقاف العملية! نجح: " ++ toString s.status.sent ++ ", فشل: " ++
        toString s.status.failed)
  else
    s.log w 436 .other "info"
      ("🎉 انتهت عملية الإرسال! نجح: " ++ toString s.status.sent ++ ", فشل: " ++
        toString s.status.failed)

/-- Lines 409-438, run once the loop is left. -/
def finish (w : World) (s : Sys) : Sys :=
  summary w (cleanup w (closeTransport w s))

/-- The `for` loop from its test `i < emailList.length` (line 359) up to the
next `await` (line 380) or, when the loop is left, to the end of the job. -/
def loop (w : World) (i : Nat) (s : Sys) : Sys :=
  if h : i < s.job.emailList.length then
    if s.status.shouldStop then
      finish w (s.log w 362 .other "info" stopNotice)
    else
      let email := s.job.emailList[i]
      let s := { s with status := { s.status with currentEmail := email } }
      let s := s.log w 369 (.info i) "info" (infoMsg i s.job.emailList.length email)
      let s := s.emit (.sendMail (mailOptions s.job email))
      { s with phase := .sending i email }
  else finish w s

/-- Lines 381-401: the counter and the log entry for the result of
`await transporter.sendMail`. -/
def recordOutcome (w : World) (i : Nat) (email : String) (r : Except JsError Unit)
    (s : Sys) : Sys :=
  match r with
  | .ok _ =>
    let s := { s with status := { s.status with sent := s.status.sent + 1 } }
    s.log w 382 (.outcome i) "success" (successMsg email)
  | .error error =>
    let s := { s with status := { s.status with failed := s.status.failed + 1 } }
    s.log w 400 (.outcome i) "error" (failureMsg email (sendErrorMsg error))

/-- The resumption after `await transporter.sendMail` (line 380) for loop
index `i`: record the outcome, then either suspend in `delay(2000)` or go on
with the loop at `i + 1`. -/
def afterSend (w : World) (i : Nat) (email : String) (r : Except JsError Unit)
    (s : Sys) : Sys :=
  let s := recordOutcome w i email r s
  if i < s.job.emailList.length - 1 && !s.status.shouldStop then
    { s with phase := .delaying i }
  else loop w (i + 1) s

/-- Lines 348-356: attach the PDF when the request names one and its file
exists. -/
def attach (w : World) (s : Sys) : Sys :=
  match s.job.pdfAttachment with
  | some pdf =>
    if pdf.path ≠ "" && w.existsSync 350 then
      let s := { s with job := { s.job with
        attachments := s.job.attachments ++
          [({ filename := pdf.originalName, path := pdf.path } : Attachment)] } }
      s.log w 355 .other "info" ("تم إرفاق ملف PDF: " ++ pdf.originalName)
    else s
  | none => s

/-- The resumption after the `await` of `transporter.verify` (lines 317-346),
followed by the attachment set-up (lines 349-356) and the first loop test. -/
def afterVerify (w : World) (r : Except JsError Unit) (s : Sys) : Sys :=
  match r with
  | .error error => connectFailed w error s
  | .ok _ =>
    loop w 0 (attach w (s.log w 327 .other "success" "تم الاتصال بخادم SMTP بنجاح"))

/-- Function `sendEmailsInBackground` from its entry to the `await` of
`transporter.verify` (lines 305-317). `create` is the outcome of
`createTransporter`: built, or an exception caught at line 329 with
`transporter` still undefined. -/
def sendEmailsInBackground (w : World) (create : Except JsError Unit) (s : Sys) : Sys :=
  let s := s.log w 305 .other "info"
    ("بدء إرسال " ++ toString s.job.emailList.length ++ " إيميل")
  let s := s.log w 306 .other "info"
    ("خادم SMTP: " ++ s.job.smtpConfig.host ++ ":" ++ s.job.smtpConfig.port)
  match create with
  | .error error => connectFailed w error s
  | .ok _ =>
    let s := s.emit .createTransporter
    let s := s.log w 315 .other "info" "جاري التحقق من الاتصال بخادم SMTP..."
    let s := s.emit .verify
    { s with phase := .verifying }

/-! ## The handlers -/

/-- Handler `POST /send-emails` (lines 240-301). The body is a parsed object,
so nothing before line 291 throws and the `catch` of line 293 is not reached. -/
def postSendEmails (w : World) (body : Body) (create : Except JsError Unit)
    (s : Sys) : Response × Sys :=
  if s.status.isRunning then
    ({ code := 400, success := false, message := "عملية إرسال أخرى قيد التنفيذ" }, s)
  else
    match body.smtpConfig, body.emailContent, body.emailList with
    | some smtpConfig, some emailContent, some emailList =>
      if emailList.length = 0 then
        ({ code := 400, success := false, message := "بيانات غير كاملة" }, s)
      else if smtpConfig.host = "" ∨ smtpConfig.email = "" ∨ smtpConfig.password = "" then
        ({ code := 400, success := false, message := "إعدادات SMTP غير مكتملة" }, s)
      else
        let s : Sys :=
          { status := { isRunning := true, total := emailList.length, sent := 0, failed := 0,
                        currentEmail := "", logs := [], shouldStop := false }
            phase := .idle
            job := { smtpConfig := smtpConfig, emailContent := emailContent,
                     emailList := emailList, pdfAttachment := body.pdfAttachment,
                     attachments := [] }
            effects := []
            origins := [] }
        let s := s.log w 283 .other "info"
          ("تم استلام طلب إرسال " ++ toString emailList.length ++ " إيميل")
        ({ code := 200, success := true, message := "بدأت عملية الإرسال" },
          sendEmailsInBackground w create s)
    | _, _, _ => ({ code := 400, success := false, message := "بيانات غير كاملة" }, s)

/-- Handler `POST /stop-sending` (lines 446-461). -/
def postStopSending (w : World) (s : Sys) : Response × Sys :=
  if s.status.isRunning then
    let s := { s with status := { s.status with shouldStop := true } }
    ({ code := 200, success := true, message := "تم طلب إيقاف عملية الإرسال" },
      s.log w 449 .other "info" "تم طلب إيقاف عملية الإرسال...")
  else
    ({ code := 200, success := false, message := "لا توجد عملية إرسال قيد التنفيذ" }, s)

/-- Handler `POST /clear-logs` (lines 572-580). -/
def postClearLogs (w : World) (s : Sys) : Response × Sys :=
  let s := { s with status := { s.status with logs := [] }, origins := [] }
  ({ code := 200, success := true, message := "تم مسح السجلات" },
    s.log w 574 .other "info" "تم مسح السجلات")

/-- Handler `POST /upload-emails` (lines 166-206). `file` is `none` when no
file came with the request, `error m` when reading or deleting the file threw
an error of message `m`, `ok text` with the text read otherwise. -/
def postUploadEmails (w : World) (file : Option (Except String String)) (s : Sys) :
    Response × Sys :=
  match file with
  | none => ({ code := 400, success := false, message := "لم يتم رفع أي ملف" }, s)
  | some (.ok fileContent) =>
    let unique := uniqueEmails fileContent
    ({ code := 200, success := true,
       message := "تم تحميل " ++ toString unique.length ++ " إيميل بنجاح",
       emails := unique },
      s.log w 189 .other "info"
        ("تم تحميل " ++ toString unique.length ++ " إيميل صحيح من الملف"))
  | some (.error m) =>
    ({ code := 500, success := false, message := "خطأ في معالجة الملف" },
      s.log w 200 .other "error" ("خطأ في معالجة الملف: " ++ m))

/-- Handler `POST /upload-pdf` (lines 209-237). `file` holds the original name
and the text of the size in megabytes as `toFixed(2)` renders it. -/
def postUploadPdf (w : World) (file : Option (String × String)) (s : Sys) : Response × Sys :=
  match file with
  | none => ({ code := 400, success := false, message := "لم يتم رفع أي ملف PDF" }, s)
  | some (originalname, size) =>
    ({ code := 200, success := true, message := "تم رفع ملف PDF بنجاح: " ++ originalname },
      s.log w 218 .other "info" ("تم رفع ملف PDF: " ++ originalname ++ " (" ++ size ++ " MB)"))

/-- The atomic steps of the server. -/
inductive Event where
  | sendEmails (body : Body) (create : Except JsError Unit)
  | verifyDone (r : Except JsError Unit)
  | sendMailDone (r : Except JsError Unit)
  | delayDone
  | stopSending
  | clearLogs
  | uploadEmails (file : Option (Except String String))
  | uploadPdf (file : Option (String × String))
  | listening (port : String)
  | sigterm
  | sigint
  | uncaughtException (message : String)
  | unhandledRejection (reason : String)

/-- One atomic step. A resumption of the job happens only where the job is
suspended; elsewhere the event cannot occur and leaves the server as it is. -/
def step (w : World) (s : Sys) : Event → Sys
  | .sendEmails body create => (postSendEmails w body create s).2
  | .verifyDone r =>
    match s.phase with
    | .verifying => afterVerify w r s
    | _ => s
  | .sendMailDone r =>
    match s.phase with
    | .sending i email => afterSend w i email r s
    | _ => s
  | .delayDone =>
    match s.phase with
    | .delaying i => loop w (i + 1) s
    | _ => s
  | .stopSending => (postStopSending w s).2
  | .clearLogs => (postClearLogs w s).2
  | .uploadEmails file => (postUploadEmails w file s).2
  | .uploadPdf file => (postUploadPdf w file s).2
  | .listening port =>
    s.log w 636 .other "info" ("الخادم بدأ العمل على المنفذ " ++ port)
  | .sigterm =>
    if s.status.isRunning then
      let s := { s with status := { s.status with shouldStop := true } }
      s.log w 645 .other "info" "إيقاف عمليات الإرسال الجارية..."
    else s
  | .sigint =>
    if s.status.isRunning then { s with status := { s.status with shouldStop := true } }
    else s
  | .uncaughtException message => s.log w 674 .other "error" ("خطأ في النظام: " ++ message)
  | .unhandledRejection reason => s.log w 679 .other "error" ("خطأ في Promise: " ++ reason)

/-- The server after a schedule of steps, each with the answers of the world
during that step. -/
def run (s : Sys) (schedule : List (World × Event)) : Sys :=
  schedule.foldl (fun s we => step we.1 s we.2) s

/-- The recipients for which `transporter.sendMail` was called, in call order. -/
def attempted (s : Sys) : List String :=
  s.effects.filterMap fun e =>
    match e with
    | .sendMail opts => some opts.toAddr
    | _ => none

/-- The origins of the log entries written by the loop for a recipient. -/
def recipientOrigins (s : Sys) : List Origin :=
  s.origins.filter fun o => o != .other

/-- The origins the loop writes for its first `k` recipients, in order: the
`[i/total]` entry of a recipient, then its outcome entry. -/
def loopOrigins : Nat → List Origin
  | 0 => []
  | k + 1 => loopOrigins k ++ [.info k, .outcome k]

/-- A world for examples: an empty clock text, the attachment file present,
nothing throws. -/
def calm : World :=
  { now := fun _ => "", existsSync := fun _ => true, closeThrows := false,
    unlinkThrows := false }

/-! ## Invariants -/

/-- Two states that agree on everything but the log, the origins and the
recorded calls other than `sendMail`. -/
structure Quiet (s t : Sys) : Prop where
  isRunning : t.status.isRunning = s.status.isRunning
  total : t.status.total = s.status.total
  sent : t.status.sent = s.status.sent
  failed : t.status.failed = s.status.failed
  shouldStop : t.status.shouldStop = s.status.shouldStop
  currentEmail : t.status.currentEmail = s.status.currentEmail
  phase : t.phase = s.phase
  job : t.job = s.job
  attempted : attempted t = attempted s
  effects : ∀ e ∈ s.effects, e ∈ t.effects

/-- The invariant that ties the counters, the recorded `sendMail` calls and
`isRunning` to the point where the job is suspended. -/
def Core (s : Sys) : Prop :=
  s.status.total = s.job.emailList.length ∧
  match s.phase with
  | .idle =>
    s.status.isRunning = false ∧ s.status.sent = 0 ∧ s.status.failed = 0 ∧ attempted s = []
  | .verifying =>
    s.status.isRunning = true ∧ s.status.sent = 0 ∧ s.status.failed = 0 ∧ attempted s = []
  | .sending i email =>
    s.status.isRunning = true ∧ s.status.sent + s.status.failed = i ∧
    s.job.emailList[i]? = some email ∧ attempted s = s.job.emailList.take (i + 1)
  | .delaying i =>
    s.status.isRunning = true ∧ s.status.sent + s.status.failed = i + 1 ∧
    i + 1 < s.job.emailList.length ∧ attempted s = s.job.emailList.take (i + 1)
  | .connectFailed =>
    s.status.isRunning = false ∧ s.status.sent = 0 ∧ s.status.failed = 0 ∧ attempted s = []
  | .finished =>
    s.status.isRunning = false ∧ s.status.sent + s.status.failed ≤ s.job.emailList.length ∧
    attempted s = s.job.emailList.take (s.status.sent + s.status.failed) ∧
    (s.status.shouldStop = false → s.status.sent + s.status.failed = s.job.emailList.length) ∧
    Effect.close ∈ s.effects

/-- What is kept of a list after a push by `addLog`: the first element goes
when more than 100 are held. -/
def keep100 {α : Type} (l : List α) : List α :=
  if l.length > 100 then l.tail else l

/-- A log entry names its recipient: the entry written at line 369 for loop
index `i` is the `[i+1/total]` info entry of the `i`-th address of the list,
the entry written at line 382 or 400 is the success entry or an error entry
of the `i`-th address. Entries of other call sites are not constrained. -/
def Names (list : List String) (e : LogEntry) : Origin → Prop
  | .other => True
  | .info i =>
    ∃ email, list[i]? = some email ∧ e.type = "info" ∧
      e.message = infoMsg i list.length email
  | .outcome i =>
    ∃ email, list[i]? = some email ∧
      ((e.type = "success" ∧ e.message = successMsg email) ∨
       (e.type = "error" ∧ ∃ error, e.message = failureMsg email (sendErrorMsg error)))

/-- The invariant of a log with its origins: as many origins as entries, at
most 100 entries, every entry names its recipient, and the origins of the
recipient entries are a final segment of `expected`. -/
def Tagged (list : List String) (expected : List Origin) (logs : List LogEntry)
    (origins : List Origin) : Prop :=
  origins.length = logs.length ∧ logs.length ≤ 100 ∧
  (∀ p ∈ logs.zip origins, Names list p.1 p.2) ∧
  origins.filter (fun o => o != .other) <:+ expected

/-- The origins the loop has written so far, by the point where the job is
suspended. -/
def expectedOrigins (s : Sys) : List Origin :=
  match s.phase with
  | .sending i _ => loopOrigins i ++ [.info i]
  | _ => loopOrigins (s.status.sent + s.status.failed)

/-- The invariant of the reachable states. -/
def Inv (s : Sys) : Prop :=
  Core s ∧ Tagged s.job.emailList (expectedOrigins s) s.status.logs s.origins

/-- The last `k` elements of a list. -/
def lastN {α : Type} (k : Nat) (l : List α) : List α :=
  l.drop (l.length - k)

/-- A request body for examples: a complete configuration and the given
recipients. -/
def sampleBody (emailList : List String) : Body :=
  { smtpConfig := some { host := "smtp.example.org", port := "587",
                         email := "me@example.org", password := "secret" }
    emailContent := some { senderName := "", subject := "hello", body := "<p>hello</p>" }
    emailList := some emailList
    pdfAttachment := none }

/-- An error for examples: the one nodemailer raises when the server refuses
every recipient at `RCPT TO` with code 550. -/
def rejected550 : JsError :=
  { code := some "EENVELOPE", responseCode := some 550,
    message := "Can't send mail - all recipients were rejected: 550 No such user" }

/-- A schedule in which the world is `calm` at every step. -/
def calmly (events : List Event) : List (World × Event) :=
  events.map fun e => (calm, e)

/-- The campaign of two recipients in which a stop request arrives while the
first send is in flight. -/
def stoppedInFirstSend : Sys :=
  run init (calmly [.sendEmails (sampleBody ["a@x.org", "b@x.org"]) (.ok ()),
    .verifyDone (.ok ()), .stopSending])

/-- The resumptions of the job in a campaign nobody interferes with, for the
given results of the sends: every send but the last is followed by the end of
the delay. -/
def sendSteps : List (Except JsError Unit) → List Event
  | [] => []
  | [r] => [.sendMailDone r]
  | r :: r' :: rs => .sendMailDone r :: .delayDone :: sendSteps (r' :: rs)

/-- The schedule of a campaign nobody interferes with: the start request, a
transporter that is built and verified, then the sends with the given
results; the world is `w` at every step. -/
def campaign (w : World) (body : Body) (results : List (Except JsError Unit)) :
    List (World × Event) :=
  (.sendEmails body (.ok ()) :: .verifyDone (.ok ()) :: sendSteps results).map fun e => (w, e)

/-- The entry `x` is among the last `k` of the list. -/
def Recent {α : Type} (k : Nat) (x : α) (l : List α) : Prop :=
  ∃ pre suf, l = pre ++ x :: suf ∧ suf.length < k

/-- The place of a recipient entry in the order of the loop: the `[i/total]`
entry of loop index `i`, then its outcome entry, then the entries of `i + 1`. -/
def Origin.rank : Origin → Nat
  | .other => 0
  | .info i => 2 * i + 1
  | .outcome i => 2 * i + 2

/-- The shape of an address in words: no whitespace, exactly one `@` with a
non-empty local part before it, and after it a domain that has a `.` which is
neither its first nor its last character. -/
def AddressShape (cs : List Char) : Prop :=
  (∀ c ∈ cs, isJsSpace c = false) ∧ cs.count '@' = 1 ∧
  ∃ loc dom, cs = loc ++ '@' :: dom ∧ loc ≠ [] ∧
    ∃ k, 0 < k ∧ k + 1 < dom.length ∧ dom[k]? = some '.'

/-- Scenario C of the specification: five recipients, the first two sends
succeed, the stop request arrives during the delay that follows the second
success, then the delay ends. -/
def stopAfterSecondSuccess (a b c d e : String) : List (World × Event) :=
  calmly [.sendEmails (sampleBody [a, b, c, d, e]) (.ok ()), .verifyDone (.ok ()),
    .sendMailDone (.ok ()), .delayDone, .sendMailDone (.ok ()), .stopSending, .delayDone]

/-- The same campaign when the stop request arrives a little later, while the
third send is in flight; `r` is the result of that send. -/
def stopInThirdSend (a b c d e : String) (r : Except JsError Unit) : List (World × Event) :=
  calmly [.sendEmails (sampleBody [a, b, c, d, e]) (.ok ()), .verifyDone (.ok ()),
    .sendMailDone (.ok ()), .delayDone, .sendMailDone (.ok ()), .delayDone, .stopSending,
    .sendMailDone r]

/-! ## Lemmas -/

/-! ## Elementary facts -/

@[simp]
theorem log_status_isRunning (w : World) (l : Nat) (o : Origin) (t m : String) (s : Sys) :
    (s.log w l o t m).status.isRunning = s.status.isRunning := rfl
@[simp]
theorem log_status_total (w : World) (l : Nat) (o : Origin) (t m : String) (s : Sys) :
    (s.log w l o t m).status.total = s.status.total := rfl
@[simp]
theorem log_status_sent (w : World) (l : Nat) (o : Origin) (t m : String) (s : Sys) :
    (s.log w l o t m).status.sent = s.status.sent := rfl
@[simp]
theorem log_status_failed (w : World) (l : Nat) (o : Origin) (t m : String) (s : Sys) :
    (s.log w l o t m).status.failed = s.status.failed := rfl
@[simp]
theorem log_status_shouldStop (w : World) (l : Nat) (o : Origin) (t m : String) (s : Sys) :
    (s.log w l o t m).status.shouldStop = s.status.shouldStop := rfl
@[simp]
theorem log_status_currentEmail (w : World) (l : Nat) (o : Origin) (t m : String)
    (s : Sys) : (s.log w l o t m).status.currentEmail = s.status.currentEmail := rfl
@[simp]
theorem log_phase (w : World) (l : Nat) (o : Origin) (t m : String) (s : Sys) :
    (s.log w l o t m).phase = s.phase := rfl
@[simp]
theorem log_job (w : World) (l : Nat) (o : Origin) (t m : String) (s : Sys) :
    (s.log w l o t m).job = s.job := rfl
@[simp]
theorem log_effects (w : World) (l : Nat) (o : Origin) (t m : String) (s : Sys) :
    (s.log w l o t m).effects = s.effects := rfl
@[simp]
theorem emit_status (e : Effect) (s : Sys) : (s.emit e).status = s.status := rfl
@[simp]
theorem emit_phase (e : Effect) (s : Sys) : (s.emit e).phase = s.phase := rfl
@[simp]
theorem emit_job (e : Effect) (s : Sys) : (s.emit e).job = s.job := rfl
@[simp]
theorem emit_origins (e : Effect) (s : Sys) : (s.emit e).origins = s.origins := rfl
@[simp]
theorem emit_effects (e : Effect) (s : Sys) : (s.emit e).effects = s.effects ++ [e] := rfl

@[simp]
theorem attempted_log (w : World) (l : Nat) (o : Origin) (t m : String) (s : Sys) :
    attempted (s.log w l o t m) = attempted s := rfl

theorem Quiet.rfl (s : Sys) : Quiet s s :=
  ⟨by simp, by simp, by simp, by simp, by simp, by simp, by simp, by simp, by simp,
    fun _ h => h⟩

theorem Quiet.trans {s t u : Sys} (h : Quiet s t) (k : Quiet t u) : Quiet s u :=
  ⟨k.isRunning.trans h.isRunning, k.total.trans h.total, k.sent.trans h.sent,
    k.failed.trans h.failed, k.shouldStop.trans h.shouldStop,
    k.currentEmail.trans h.currentEmail, k.phase.trans h.phase, k.job.trans h.job,
    k.attempted.trans h.attempted, fun e he => k.effects e (h.effects e he)⟩

theorem quiet_log (w : World) (l : Nat) (o : Origin) (t m : String) (s : Sys) :
    Quiet s (s.log w l o t m) :=
  ⟨by simp, by simp, by simp, by simp, by simp, by simp, by simp, by simp, by simp,
    fun _ h => by simpa using h⟩

theorem quiet_closeTransport (w : World) (s : Sys) : Quiet s (closeTransport w s) := by
  unfold closeTransport
  split_ifs <;> constructor <;> simp [attempted] <;> tauto

theorem close_mem_closeTransport (w : World) (s : Sys) :
    Effect.close ∈ (closeTransport w s).effects := by
  unfold closeTransport
  split_ifs <;> simp

theorem quiet_cleanup (w : World) (s : Sys) : Quiet s (cleanup w s) := by
  unfold cleanup
  split
  · split_ifs <;> constructor <;> simp [attempted] <;> tauto
  · exact Quiet.rfl s

theorem summary_facts (w : World) (s : Sys) :
    (summary w s).status.isRunning = false ∧ (summary w s).phase = .finished ∧
    (summary w s).status.sent = s.status.sent ∧ (summary w s).status.failed = s.status.failed ∧
    (summary w s).status.total = s.status.total ∧
    (summary w s).status.shouldStop = s.status.shouldStop ∧
    (summary w s).job = s.job ∧ attempted (summary w s) = attempted s ∧
    (summary w s).effects = s.effects := by
  unfold summary
  simp only
  split_ifs <;> simp [attempted]

/-- The counters and the job after `finish`. -/
theorem finish_facts (w : World) (s : Sys) :
    (finish w s).status.isRunning = false ∧ (finish w s).phase = .finished ∧
    (finish w s).status.sent = s.status.sent ∧ (finish w s).status.failed = s.status.failed ∧
    (finish w s).status.total = s.status.total ∧
    (finish w s).status.shouldStop = s.status.shouldStop ∧
    (finish w s).job = s.job ∧ attempted (finish w s) = attempted s ∧
    Effect.close ∈ (finish w s).effects ∧ ∀ e ∈ s.effects, e ∈ (finish w s).effects := by
  have q := (quiet_closeTransport w s).trans (quiet_cleanup w (closeTransport w s))
  obtain ⟨h1, h2, h3, h4, h5, h6, h7, h8, h9⟩ := summary_facts w (cleanup w (closeTransport w s))
  unfold finish
  refine ⟨h1, h2, h3.trans q.sent, h4.trans q.failed, h5.trans q.total, h6.trans q.shouldStop,
    h7.trans q.job, h8.trans q.attempted, ?_, ?_⟩
  · rw [h9]
    exact (quiet_cleanup w _).effects _ (close_mem_closeTransport w s)
  · intro e he
    rw [h9]
    exact q.effects e he

theorem core_finish (w : World) (s : Sys) (ht : s.status.total = s.job.emailList.length)
    (hi : s.status.sent + s.status.failed ≤ s.job.emailList.length)
    (ha : attempted s = s.job.emailList.take (s.status.sent + s.status.failed))
    (hs : s.status.shouldStop = false → s.status.sent + s.status.failed = s.job.emailList.length) :
    Core (finish w s) := by
  obtain ⟨h1, h2, h3, h4, h5, h6, h7, h8, h9, -⟩ := finish_facts w s
  unfold Core
  rw [h2]
  simp only [h1, h3, h4, h5, h6, h7, h8, h9]
  exact ⟨ht, trivial, hi, ha, hs, trivial⟩

theorem core_loop (w : World) (i : Nat) (s : Sys) (hr : s.status.isRunning = true)
    (ht : s.status.total = s.job.emailList.length) (hi : i ≤ s.job.emailList.length)
    (hc : s.status.sent + s.status.failed = i) (ha : attempted s = s.job.emailList.take i) :
    Core (loop w i s) := by
  unfold loop
  split_ifs with h1 h2
  · apply core_finish
    · simpa using ht
    · simp; omega
    · simpa [hc] using ha
    · simp [h2]
  · simp only [Core, log_status_total, log_job, log_status_isRunning, log_status_sent,
      log_status_failed, emit_status, emit_job]
    refine ⟨ht, hr, hc, ?_, ?_⟩
    · simp [h1]
    · have hh : attempted s = s.job.emailList.take i := ha
      simp only [attempted, emit_effects, log_effects, List.filterMap_append] at hh ⊢
      rw [hh]
      rw [List.take_succ, List.getElem?_eq_getElem h1]
      rfl
  · have : i = s.job.emailList.length := by omega
    apply core_finish
    · exact ht
    · omega
    · rw [hc]; exact ha
    · intro _; omega

theorem core_of_quiet {s t : Sys} (q : Quiet s t) (h : Core s) : Core t := by
  unfold Core at h ⊢
  rw [q.phase, q.total, q.job, q.isRunning, q.sent, q.failed, q.attempted, q.shouldStop]
  refine ⟨h.1, ?_⟩
  have h2 := h.2
  cases hp : s.phase <;> simp only [hp] at h2 ⊢ <;> try exact h2
  exact ⟨h2.1, h2.2.1, h2.2.2.1, h2.2.2.2.1, q.effects _ h2.2.2.2.2⟩

theorem core_connectFailed (w : World) (error : JsError) (s : Sys)
    (ht : s.status.total = s.job.emailList.length) (h0 : s.status.sent = 0)
    (h1 : s.status.failed = 0) (ha : attempted s = []) : Core (connectFailed w error s) := by
  simp [connectFailed, Core, ht, h0, h1]
  exact ha

theorem attach_facts (w : World) (s : Sys) :
    (attach w s).status.isRunning = s.status.isRunning ∧
    (attach w s).status.total = s.status.total ∧ (attach w s).status.sent = s.status.sent ∧
    (attach w s).status.failed = s.status.failed ∧
    (attach w s).status.shouldStop = s.status.shouldStop ∧
    (attach w s).job.emailList = s.job.emailList ∧ (attach w s).phase = s.phase ∧
    (attach w s).effects = s.effects := by
  unfold attach
  split
  · split_ifs <;> simp
  · simp

theorem core_afterSend (w : World) (i : Nat) (email : String) (r : Except JsError Unit)
    (s : Sys) (hp : s.phase = .sending i email) (h : Core s) : Core (afterSend w i email r s) := by
  unfold Core at h
  rw [hp] at h
  obtain ⟨ht, hr, hc, he, ha⟩ := h
  have hi : i < s.job.emailList.length := by
    rcases Nat.lt_or_ge i s.job.emailList.length with h | h
    · exact h
    · rw [List.getElem?_eq_none h] at he; cases he
  have key : (recordOutcome w i email r s).status.isRunning = true ∧
      (recordOutcome w i email r s).status.total = s.status.total ∧
      (recordOutcome w i email r s).status.sent + (recordOutcome w i email r s).status.failed
        = i + 1 ∧
      (recordOutcome w i email r s).job = s.job ∧
      attempted (recordOutcome w i email r s) = attempted s := by
    unfold recordOutcome
    cases r <;> simp [hr, attempted] <;> omega
  obtain ⟨k1, k2, k3, k4, k5⟩ := key
  unfold afterSend
  simp only
  split_ifs with hd
  · simp only [Core, k1, k2, k3, k4]
    simp [k4] at hd
    refine ⟨ht, trivial, trivial, by omega, ?_⟩
    exact k5.trans ha
  · apply core_loop
    · exact k1
    · rw [k2, k4]; exact ht
    · rw [k4]; omega
    · exact k3
    · rw [k5, k4]; exact ha

theorem core_step (w : World) (s : Sys) (e : Event) (h : Core s) : Core (step w s e) := by
  cases e with
  | sendEmails body create =>
    simp only [step, postSendEmails]
    split_ifs with hr
    · exact h
    · split
      · split_ifs
        · exact h
        · exact h
        · unfold sendEmailsInBackground
          cases create with
          | error err => exact core_connectFailed _ _ _ rfl rfl rfl rfl
          | ok u => simp [Core, attempted]
      · exact h
  | verifyDone r =>
    simp only [step]
    split
    · rename_i hp
      unfold Core at h
      rw [hp] at h
      obtain ⟨ht, hr, h0, h1, ha⟩ := h
      unfold afterVerify
      cases r with
      | error err => exact core_connectFailed _ _ _ ht h0 h1 ha
      | ok u =>
        obtain ⟨a1, a2, a3, a4, a5, a6, a7, a8⟩ :=
          attach_facts w (s.log w 327 .other "success" "تم الاتصال بخادم SMTP بنجاح")
        apply core_loop
        · rw [a1]; exact hr
        · rw [a2, a6]; exact ht
        · omega
        · rw [a3, a4]; simp [h0, h1]
        · simp only [attempted, a8] at ha ⊢
          simpa using ha
    · exact h
  | sendMailDone r =>
    simp only [step]
    split
    · rename_i i email hp
      exact core_afterSend w i email r s hp h
    · exact h
  | delayDone =>
    simp only [step]
    split
    · rename_i i hp
      unfold Core at h
      rw [hp] at h
      obtain ⟨ht, hr, hc, hi, ha⟩ := h
      exact core_loop w (i + 1) s hr ht (by omega) hc ha
    · exact h
  | stopSending =>
    simp only [step, postStopSending]
    split_ifs with hr
    · unfold Core at h ⊢
      cases hp : s.phase <;> simp [hp, hr, attempted] at h ⊢ <;> exact h
    · exact h
  | clearLogs =>
    simp only [step, postClearLogs]
    unfold Core at h ⊢
    cases hp : s.phase <;> simp [hp, attempted] at h ⊢ <;> exact h
  | uploadEmails file =>
    simp only [step, postUploadEmails]
    split
    · exact h
    · exact core_of_quiet (quiet_log _ _ _ _ _ _) h
    · exact core_of_quiet (quiet_log _ _ _ _ _ _) h
  | uploadPdf file =>
    simp only [step, postUploadPdf]
    split
    · exact h
    · exact core_of_quiet (quiet_log _ _ _ _ _ _) h
  | listening port => exact core_of_quiet (quiet_log _ _ _ _ _ _) h
  | sigterm =>
    simp only [step]
    split_ifs with hr
    · unfold Core at h ⊢
      cases hp : s.phase <;> simp [hp, hr, attempted] at h ⊢ <;> exact h
    · exact h
  | sigint =>
    simp only [step]
    split_ifs with hr
    · unfold Core at h ⊢
      cases hp : s.phase <;> simp [hp, hr, attempted] at h ⊢ <;> exact h
    · exact h
  | uncaughtException message => exact core_of_quiet (quiet_log _ _ _ _ _ _) h
  | unhandledRejection reason => exact core_of_quiet (quiet_log _ _ _ _ _ _) h

theorem log_logs (w : World) (l : Nat) (o : Origin) (t m : String) (s : Sys) :
    (s.log w l o t m).status.logs =
      keep100 (s.status.logs ++ [{ type := t, message := m, timestamp := w.now l }]) := rfl

theorem log_origins (w : World) (l : Nat) (o : Origin) (t m : String) (s : Sys) :
    (s.log w l o t m).origins = keep100 (s.origins ++ [o]) := rfl

theorem keep100_suffix {α : Type} (l : List α) : keep100 l <:+ l := by
  unfold keep100
  split_ifs
  · exact List.tail_suffix l
  · exact List.suffix_refl l

theorem keep100_length_le {α : Type} (l : List α) (h : l.length ≤ 101) :
    (keep100 l).length ≤ 100 := by
  unfold keep100
  split_ifs with h1
  · simp; omega
  · omega

theorem mem_zip_keep100 {α β : Type} (a : List α) (b : List β) (h : a.length = b.length)
    (p : α × β) (hp : p ∈ (keep100 a).zip (keep100 b)) : p ∈ a.zip b := by
  unfold keep100 at hp
  rw [h] at hp
  split_ifs at hp with h1
  · cases a with
    | nil => simp at hp
    | cons x xs =>
      cases b with
      | nil => simp at hp
      | cons y ys =>
        simp only [List.tail_cons] at hp
        simp only [List.zip_cons_cons, List.mem_cons]
        exact Or.inr hp
  · exact hp

theorem tagged_nil (list : List String) (expected : List Origin) :
    Tagged list expected [] [] := by
  refine ⟨rfl, by simp, by simp, ?_⟩
  simp

theorem tagged_push (list : List String) (expected : List Origin) (logs : List LogEntry)
    (origins : List Origin) (e : LogEntry) (o : Origin)
    (h : Tagged list expected logs origins) (hn : Names list e o) :
    Tagged list (expected ++ [o].filter (fun o => o != .other))
      (keep100 (logs ++ [e])) (keep100 (origins ++ [o])) := by
  obtain ⟨h1, h2, h3, h4⟩ := h
  refine ⟨?_, ?_, ?_, ?_⟩
  · unfold keep100
    simp only [List.length_append, List.length_singleton, h1]
    split_ifs <;> simp [h1]
  · apply keep100_length_le
    simp; omega
  · intro p hp
    have hp2 := mem_zip_keep100 _ _ (by simp [h1]) p hp
    rw [List.zip_append h1.symm] at hp2
    rcases List.mem_append.1 hp2 with hp3 | hp3
    · exact h3 p hp3
    · simp at hp3
      subst hp3
      exact hn
  · have hs : List.filter (fun o => o != Origin.other) (keep100 (origins ++ [o])) <:+
        List.filter (fun o => o != Origin.other) (origins ++ [o]) :=
      (keep100_suffix _).filter _
    refine hs.trans ?_
    rw [List.filter_append]
    obtain ⟨t, ht⟩ := h4
    exact ⟨t, by rw [← ht, List.append_assoc]⟩

theorem tagged_log_other (list : List String) (expected : List Origin) (w : World) (l : Nat)
    (t m : String) (s : Sys) (h : Tagged list expected s.status.logs s.origins) :
    Tagged list expected (s.log w l .other t m).status.logs (s.log w l .other t m).origins := by
  have := tagged_push list expected _ _ { type := t, message := m, timestamp := w.now l }
    .other h trivial
  simpa [log_logs, log_origins] using this

theorem tagged_closeTransport (list : List String) (expected : List Origin) (w : World)
    (s : Sys) (h : Tagged list expected s.status.logs s.origins) :
    Tagged list expected (closeTransport w s).status.logs (closeTransport w s).origins := by
  unfold closeTransport
  split_ifs
  · exact h
  · exact tagged_log_other _ _ _ _ _ _ _ h

theorem tagged_cleanup (list : List String) (expected : List Origin) (w : World)
    (s : Sys) (h : Tagged list expected s.status.logs s.origins) :
    Tagged list expected (cleanup w s).status.logs (cleanup w s).origins := by
  unfold cleanup
  split
  · split_ifs
    · exact h
    · exact tagged_log_other _ _ _ _ _ _ _ h
    · exact h
  · exact h

theorem tagged_summary (list : List String) (expected : List Origin) (w : World)
    (s : Sys) (h : Tagged list expected s.status.logs s.origins) :
    Tagged list expected (summary w s).status.logs (summary w s).origins := by
  unfold summary
  simp only
  split_ifs
  · exact tagged_log_other _ _ _ _ _ _ _ h
  · exact tagged_log_other _ _ _ _ _ _ _ h

theorem tagged_finish (list : List String) (expected : List Origin) (w : World)
    (s : Sys) (h : Tagged list expected s.status.logs s.origins) :
    Tagged list expected (finish w s).status.logs (finish w s).origins :=
  tagged_summary _ _ _ _ (tagged_cleanup _ _ _ _ (tagged_closeTransport _ _ _ _ h))

theorem tagged_attach (list : List String) (expected : List Origin) (w : World)
    (s : Sys) (h : Tagged list expected s.status.logs s.origins) :
    Tagged list expected (attach w s).status.logs (attach w s).origins := by
  unfold attach
  split
  · split_ifs
    · exact tagged_log_other _ _ _ _ _ _ _ h
    · exact h
  · exact h

theorem tagged_connectFailed (list : List String) (expected : List Origin) (w : World)
    (error : JsError) (s : Sys) (h : Tagged list expected s.status.logs s.origins) :
    Tagged list expected (connectFailed w error s).status.logs
      (connectFailed w error s).origins := by
  unfold connectFailed
  exact tagged_log_other _ _ _ _ _ _ _ h

theorem expectedOrigins_finish (w : World) (s : Sys) :
    expectedOrigins (finish w s) = loopOrigins (s.status.sent + s.status.failed) := by
  obtain ⟨-, h2, h3, h4, -⟩ := finish_facts w s
  simp [expectedOrigins, h2, h3, h4]

theorem tagged_loop (w : World) (i : Nat) (s : Sys)
    (hc : s.status.sent + s.status.failed = i)
    (h : Tagged s.job.emailList (loopOrigins i) s.status.logs s.origins) :
    Tagged (loop w i s).job.emailList (expectedOrigins (loop w i s)) (loop w i s).status.logs
      (loop w i s).origins := by
  unfold loop
  split_ifs with h1 h2
  · rw [expectedOrigins_finish, (finish_facts w _).2.2.2.2.2.2.1]
    simp only [log_status_sent, log_status_failed, log_job, hc]
    exact tagged_finish _ _ _ _ (tagged_log_other _ _ _ _ _ _ _ h)
  · simp only [expectedOrigins, log_job, emit_job]
    have := tagged_push s.job.emailList (loopOrigins i) s.status.logs s.origins
      { type := "info", message := infoMsg i s.job.emailList.length s.job.emailList[i],
        timestamp := w.now 369 } (.info i) h
      ⟨s.job.emailList[i], List.getElem?_eq_getElem h1, rfl, rfl⟩
    exact this
  · rw [expectedOrigins_finish, (finish_facts w _).2.2.2.2.2.2.1, hc]
    exact tagged_finish _ _ _ _ h

@[simp]
theorem expectedOrigins_log (w : World) (l : Nat) (o : Origin) (t m : String) (s : Sys) :
    expectedOrigins (s.log w l o t m) = expectedOrigins s := rfl

theorem tagged_afterSend (w : World) (i : Nat) (email : String) (r : Except JsError Unit)
    (s : Sys) (hp : s.phase = .sending i email) (h : Inv s) :
    Tagged (afterSend w i email r s).job.emailList (expectedOrigins (afterSend w i email r s))
      (afterSend w i email r s).status.logs (afterSend w i email r s).origins := by
  obtain ⟨hcore, htag⟩ := h
  unfold Core at hcore
  simp only [expectedOrigins, hp] at htag
  rw [hp] at hcore
  obtain ⟨ht, hr, hc, he, ha⟩ := hcore
  have key : (recordOutcome w i email r s).status.sent +
        (recordOutcome w i email r s).status.failed = i + 1 ∧
      (recordOutcome w i email r s).job = s.job ∧
      Tagged s.job.emailList (loopOrigins (i + 1)) (recordOutcome w i email r s).status.logs
        (recordOutcome w i email r s).origins := by
    unfold recordOutcome
    cases r with
    | ok u =>
      refine ⟨by simp; omega, rfl, ?_⟩
      have := tagged_push s.job.emailList _ s.status.logs s.origins
        { type := "success", message := successMsg email, timestamp := w.now 382 }
        (.outcome i) htag ⟨email, he, Or.inl ⟨rfl, rfl⟩⟩
      simpa [loopOrigins] using this
    | error err =>
      refine ⟨by simp; omega, rfl, ?_⟩
      have := tagged_push s.job.emailList _ s.status.logs s.origins
        { type := "error", message := failureMsg email (sendErrorMsg err),
          timestamp := w.now 400 }
        (.outcome i) htag ⟨email, he, Or.inr ⟨rfl, err, rfl⟩⟩
      simpa [loopOrigins] using this
  obtain ⟨k1, k2, k3⟩ := key
  unfold afterSend
  simp only
  split_ifs with hd
  · simp only [expectedOrigins, k1, k2]
    exact k3
  · apply tagged_loop _ _ _ k1
    rw [k2]
    exact k3

theorem tagged_step (w : World) (s : Sys) (e : Event) (h : Inv s) :
    Tagged (step w s e).job.emailList (expectedOrigins (step w s e)) (step w s e).status.logs
      (step w s e).origins := by
  have htag := h.2
  cases e with
  | sendEmails body create =>
    simp only [step, postSendEmails]
    split_ifs with hr
    · exact htag
    · split
      · split_ifs
        · exact htag
        · exact htag
        · unfold sendEmailsInBackground
          cases create with
          | error err =>
            simp only
            apply tagged_connectFailed
            apply tagged_log_other
            apply tagged_log_other
            apply tagged_log_other
            exact tagged_nil _ _
          | ok u =>
            simp only
            apply tagged_log_other
            apply tagged_log_other
            apply tagged_log_other
            apply tagged_log_other
            exact tagged_nil _ _
      · exact htag
  | verifyDone r =>
    simp only [step]
    split
    · rename_i hp
      have hcore := h.1
      unfold Core at hcore
      rw [hp] at hcore
      obtain ⟨ht, hr, h0, h1, ha⟩ := hcore
      simp only [expectedOrigins, hp, h0, h1] at htag
      unfold afterVerify
      cases r with
      | error err =>
        simp only
        have : expectedOrigins (connectFailed w err s) = loopOrigins (0 + 0) := by
          simp [expectedOrigins, connectFailed, h0, h1]
        rw [this]
        exact tagged_connectFailed _ _ _ _ _ htag
      | ok u =>
        obtain ⟨a1, a2, a3, a4, a5, a6, a7, a8⟩ :=
          attach_facts w (s.log w 327 .other "success" "تم الاتصال بخادم SMTP بنجاح")
        apply tagged_loop
        · rw [a3, a4]; simp [h0, h1]
        · rw [a6]
          apply tagged_attach
          apply tagged_log_other
          exact htag
    · exact htag
  | sendMailDone r =>
    simp only [step]
    split
    · rename_i i email hp
      exact tagged_afterSend w i email r s hp h
    · exact htag
  | delayDone =>
    simp only [step]
    split
    · rename_i i hp
      have hcore := h.1
      unfold Core at hcore
      rw [hp] at hcore
      obtain ⟨ht, hr, hc, hi, ha⟩ := hcore
      simp only [expectedOrigins, hp, hc] at htag
      exact tagged_loop w (i + 1) s hc htag
    · exact htag
  | stopSending =>
    simp only [step, postStopSending]
    split_ifs with hr
    · exact tagged_log_other _ _ _ _ _ _ _ htag
    · exact htag
  | clearLogs =>
    simp only [step, postClearLogs]
    exact tagged_log_other _ _ _ _ _ _ _ (tagged_nil _ _)
  | uploadEmails file =>
    simp only [step, postUploadEmails]
    split
    · exact htag
    · exact tagged_log_other _ _ _ _ _ _ _ htag
    · exact tagged_log_other _ _ _ _ _ _ _ htag
  | uploadPdf file =>
    simp only [step, postUploadPdf]
    split
    · exact htag
    · exact tagged_log_other _ _ _ _ _ _ _ htag
  | listening port => exact tagged_log_other _ _ _ _ _ _ _ htag
  | sigterm =>
    simp only [step]
    split_ifs with hr
    · exact tagged_log_other _ _ _ _ _ _ _ htag
    · exact htag
  | sigint =>
    simp only [step]
    split_ifs with hr
    · exact htag
    · exact htag
  | uncaughtException message => exact tagged_log_other _ _ _ _ _ _ _ htag
  | unhandledRejection reason => exact tagged_log_other _ _ _ _ _ _ _ htag

theorem inv_init : Inv init := by
  refine ⟨?_, ?_⟩
  · simp [Core, init, initialStatus, attempted]
  · exact tagged_nil _ _

theorem inv_step (w : World) (s : Sys) (e : Event) (h : Inv s) : Inv (step w s e) :=
  ⟨core_step w s e h.1, tagged_step w s e h⟩

theorem inv_run_of (s : Sys) (schedule : List (World × Event)) (h : Inv s) :
    Inv (run s schedule) := by
  induction schedule generalizing s with
  | nil => exact h
  | cons we rest ih => exact ih _ (inv_step we.1 s we.2 h)

theorem inv_run (schedule : List (World × Event)) : Inv (run init schedule) :=
  inv_run_of init schedule inv_init

theorem getLast?_keep100_push {α : Type} (l : List α) (e : α) :
    (keep100 (l ++ [e])).getLast? = some e := by
  unfold keep100
  split_ifs with h
  · cases l with
    | nil => simp at h
    | cons x xs => simp
  · simp

theorem core_le {s : Sys} (h : Core s) : s.status.sent + s.status.failed ≤ s.status.total := by
  unfold Core at h
  obtain ⟨ht, h2⟩ := h
  rw [ht]
  cases hp : s.phase with
  | idle => rw [hp] at h2; simp at h2; omega
  | verifying => rw [hp] at h2; simp at h2; omega
  | sending i email =>
    rw [hp] at h2
    obtain ⟨-, hc, he, -⟩ := h2
    rcases Nat.lt_or_ge i s.job.emailList.length with h | h
    · omega
    · rw [List.getElem?_eq_none h] at he; cases he
  | delaying i => rw [hp] at h2; simp at h2; omega
  | connectFailed => rw [hp] at h2; simp at h2; omega
  | finished => rw [hp] at h2; simp at h2; omega

theorem loop_counters (w : World) (i : Nat) (s : Sys) :
    (loop w i s).status.sent = s.status.sent ∧ (loop w i s).status.failed = s.status.failed ∧
    (loop w i s).status.total = s.status.total := by
  unfold loop
  split_ifs
  · obtain ⟨-, -, h3, h4, h5, -⟩ := finish_facts w (s.log w 362 .other "info" stopNotice)
    exact ⟨h3, h4, h5⟩
  · exact ⟨rfl, rfl, rfl⟩
  · obtain ⟨-, -, h3, h4, h5, -⟩ := finish_facts w s
    exact ⟨h3, h4, h5⟩

theorem afterVerify_counters (w : World) (r : Except JsError Unit) (s : Sys) :
    (afterVerify w r s).status.sent = s.status.sent ∧
    (afterVerify w r s).status.failed = s.status.failed ∧
    (afterVerify w r s).status.total = s.status.total := by
  unfold afterVerify
  cases r with
  | error err => exact ⟨rfl, rfl, rfl⟩
  | ok u =>
    obtain ⟨-, a2, a3, a4, -⟩ :=
      attach_facts w (s.log w 327 .other "success" "تم الاتصال بخادم SMTP بنجاح")
    obtain ⟨l1, l2, l3⟩ := loop_counters w 0
      (attach w (s.log w 327 .other "success" "تم الاتصال بخادم SMTP بنجاح"))
    exact ⟨l1.trans a3, l2.trans a4, l3.trans a2⟩

theorem afterSend_counters (w : World) (i : Nat) (email : String) (r : Except JsError Unit)
    (s : Sys) :
    (afterSend w i email r s).status.sent = (recordOutcome w i email r s).status.sent ∧
    (afterSend w i email r s).status.failed = (recordOutcome w i email r s).status.failed ∧
    (afterSend w i email r s).status.total = s.status.total := by
  unfold afterSend
  simp only
  split_ifs
  · refine ⟨rfl, rfl, ?_⟩
    cases r <;> rfl
  · obtain ⟨l1, l2, l3⟩ := loop_counters w (i + 1) (recordOutcome w i email r s)
    refine ⟨l1, l2, l3.trans ?_⟩
    cases r <;> rfl

theorem sendEmailsInBackground_counters (w : World) (create : Except JsError Unit) (s : Sys) :
    (sendEmailsInBackground w create s).status.sent = s.status.sent ∧
    (sendEmailsInBackground w create s).status.failed = s.status.failed := by
  unfold sendEmailsInBackground
  cases create <;> exact ⟨rfl, rfl⟩

theorem step_counters (w : World) (s : Sys) (e : Event) :
    (∃ i email r, s.phase = .sending i email ∧ e = .sendMailDone r ∧
      (step w s e).status.sent = (recordOutcome w i email r s).status.sent ∧
      (step w s e).status.failed = (recordOutcome w i email r s).status.failed ∧
      (step w s e).status.total = s.status.total) ∨
    ((step w s e).status.sent = s.status.sent ∧ (step w s e).status.failed = s.status.failed) ∨
    (∃ body create, e = .sendEmails body create ∧
      (postSendEmails w body create s).1.code = 200 ∧
      (step w s e).status.sent = 0 ∧ (step w s e).status.failed = 0) := by
  cases e with
  | sendEmails body create =>
    simp only [step, postSendEmails]
    split_ifs with hr
    · exact Or.inr (Or.inl ⟨rfl, rfl⟩)
    · split
      · split_ifs with h1 h2
        · exact Or.inr (Or.inl ⟨rfl, rfl⟩)
        · exact Or.inr (Or.inl ⟨rfl, rfl⟩)
        · refine Or.inr (Or.inr ⟨body, create, rfl, ?_, ?_, ?_⟩)
          · rename_i hb1 hb2 hb3
            simp [postSendEmails, hr, hb1, hb2, hb3, h1, h2]
          · exact (sendEmailsInBackground_counters _ _ _).1
          · exact (sendEmailsInBackground_counters _ _ _).2
      · exact Or.inr (Or.inl ⟨rfl, rfl⟩)
  | verifyDone r =>
    simp only [step]
    split
    · exact Or.inr (Or.inl ⟨(afterVerify_counters w r s).1, (afterVerify_counters w r s).2.1⟩)
    · exact Or.inr (Or.inl ⟨rfl, rfl⟩)
  | sendMailDone r =>
    simp only [step]
    split
    · rename_i i email hp
      exact Or.inl ⟨i, email, r, hp, rfl, afterSend_counters w i email r s⟩
    · exact Or.inr (Or.inl ⟨rfl, rfl⟩)
  | delayDone =>
    simp only [step]
    split
    · rename_i i hp
      exact Or.inr (Or.inl ⟨(loop_counters w (i + 1) s).1, (loop_counters w (i + 1) s).2.1⟩)
    · exact Or.inr (Or.inl ⟨rfl, rfl⟩)
  | stopSending =>
    simp only [step, postStopSending]
    split_ifs <;> exact Or.inr (Or.inl ⟨rfl, rfl⟩)
  | clearLogs => exact Or.inr (Or.inl ⟨rfl, rfl⟩)
  | uploadEmails file =>
    simp only [step, postUploadEmails]
    split <;> exact Or.inr (Or.inl ⟨rfl, rfl⟩)
  | uploadPdf file =>
    simp only [step, postUploadPdf]
    split <;> exact Or.inr (Or.inl ⟨rfl, rfl⟩)
  | listening port => exact Or.inr (Or.inl ⟨rfl, rfl⟩)
  | sigterm =>
    simp only [step]
    split_ifs <;> exact Or.inr (Or.inl ⟨rfl, rfl⟩)
  | sigint =>
    simp only [step]
    split_ifs <;> exact Or.inr (Or.inl ⟨rfl, rfl⟩)
  | uncaughtException message => exact Or.inr (Or.inl ⟨rfl, rfl⟩)
  | unhandledRejection reason => exact Or.inr (Or.inl ⟨rfl, rfl⟩)

theorem run_cons (s : Sys) (w : World) (e : Event) (rest : List (World × Event)) :
    run s ((w, e) :: rest) = run (step w s e) rest := rfl

theorem recordOutcome_facts (w : World) (i : Nat) (email : String) (r : Except JsError Unit)
    (s : Sys) :
    (recordOutcome w i email r s).status.sent + (recordOutcome w i email r s).status.failed =
      s.status.sent + s.status.failed + 1 ∧
    (recordOutcome w i email r s).status.total = s.status.total ∧
    (recordOutcome w i email r s).status.shouldStop = s.status.shouldStop ∧
    (recordOutcome w i email r s).status.isRunning = s.status.isRunning ∧
    (recordOutcome w i email r s).job = s.job ∧
    (recordOutcome w i email r s).effects = s.effects := by
  unfold recordOutcome
  cases r with
  | ok u => refine ⟨?_, rfl, rfl, rfl, rfl, rfl⟩; simp; omega
  | error err => refine ⟨?_, rfl, rfl, rfl, rfl, rfl⟩; simp; omega

/-- A campaign suspended in the send of index `i`, not stopped, runs to its
end when the remaining sends get their results. -/
theorem sendSteps_finish (w : World) (results : List (Except JsError Unit)) :
    ∀ (s : Sys) (i : Nat) (email : String), s.phase = .sending i email →
      s.status.shouldStop = false → s.job.emailList.length = i + results.length →
      results ≠ [] →
      (run s ((sendSteps results).map fun e => (w, e))).phase = .finished ∧
      (run s ((sendSteps results).map fun e => (w, e))).status.isRunning = false ∧
      (run s ((sendSteps results).map fun e => (w, e))).status.shouldStop = false ∧
      (run s ((sendSteps results).map fun e => (w, e))).status.sent +
        (run s ((sendSteps results).map fun e => (w, e))).status.failed =
        s.status.sent + s.status.failed + results.length ∧
      (run s ((sendSteps results).map fun e => (w, e))).status.total = s.status.total := by
  induction results with
  | nil => intro s i email _ _ _ h; exact absurd rfl h
  | cons r rs ih =>
    intro s i email hp hs hn _
    obtain ⟨k1, k2, k3, k4, k5, k6⟩ := recordOutcome_facts w i email r s
    cases rs with
    | nil =>
      simp only [sendSteps, List.map, run_cons, run, List.foldl, step, hp]
      simp only [List.length_singleton] at hn
      have hstep : afterSend w i email r s = finish w (recordOutcome w i email r s) := by
        unfold afterSend loop
        simp only [k5, hn]
        simp
      rw [hstep]
      obtain ⟨f1, f2, f3, f4, f5, f6, -⟩ := finish_facts w (recordOutcome w i email r s)
      refine ⟨f2, f1, f6.trans (k3.trans hs), ?_, f5.trans k2⟩
      rw [f3, f4, k1]
      simp
    | cons r' rs' =>
      simp only [sendSteps, List.map_cons, run_cons]
      simp only [List.length_cons] at hn
      have hlt : i + 1 < s.job.emailList.length := by omega
      have hstep : step w s (.sendMailDone r) =
          { recordOutcome w i email r s with phase := .delaying i } := by
        simp only [step, hp]
        unfold afterSend
        simp only [k5, k3, hs]
        rw [if_pos]
        simp
        omega
      rw [hstep]
      have hstep2 : step w { recordOutcome w i email r s with phase := .delaying i } .delayDone =
          loop w (i + 1) { recordOutcome w i email r s with phase := .delaying i } := rfl
      rw [hstep2]
      have hl : ∃ t : Sys, loop w (i + 1)
            { recordOutcome w i email r s with phase := .delaying i } = t ∧
          t.phase = .sending (i + 1) (s.job.emailList[i + 1]) ∧
          t.status.shouldStop = false ∧ t.job = s.job ∧
          t.status.sent + t.status.failed = s.status.sent + s.status.failed + 1 ∧
          t.status.total = s.status.total := by
        refine ⟨_, rfl, ?_⟩
        unfold loop
        simp only [k5, k3, hs, hlt, dite_true]
        simp
        exact ⟨k1, k2⟩
      obtain ⟨t, ht, t1, t2, t3, t4, t5⟩ := hl
      rw [ht]
      obtain ⟨g1, g2, g3, g4, g5⟩ := ih t (i + 1) _ t1 t2
        (by rw [t3, hn]; simp only [List.length_cons]; omega) (by simp)
      refine ⟨g1, g2, g3, ?_, g5.trans t5⟩
      rw [g4, t4]
      simp only [List.length_cons]
      omega

theorem loop_enter (w : World) (i : Nat) (s : Sys) (h : i < s.job.emailList.length)
    (hs : s.status.shouldStop = false) :
    (loop w i s).phase = .sending i (s.job.emailList[i]) ∧
    (loop w i s).status.shouldStop = false ∧ (loop w i s).job = s.job ∧
    (loop w i s).status.sent = s.status.sent ∧ (loop w i s).status.failed = s.status.failed ∧
    (loop w i s).status.total = s.status.total ∧
    (loop w i s).status.isRunning = s.status.isRunning := by
  unfold loop
  simp only [h, hs, dite_true]
  simp

theorem afterVerify_enter (w : World) (s : Sys) (x : String) (xs : List String)
    (hl : s.job.emailList = x :: xs) (hs : s.status.shouldStop = false) :
    (afterVerify w (.ok ()) s).phase = .sending 0 x ∧
    (afterVerify w (.ok ()) s).status.shouldStop = false ∧
    (afterVerify w (.ok ()) s).job.emailList = x :: xs ∧
    (afterVerify w (.ok ()) s).status.sent = s.status.sent ∧
    (afterVerify w (.ok ()) s).status.failed = s.status.failed ∧
    (afterVerify w (.ok ()) s).status.total = s.status.total := by
  unfold afterVerify
  simp only
  obtain ⟨a1, a2, a3, a4, a5, a6, a7, a8⟩ :=
    attach_facts w (s.log w 327 .other "success" "تم الاتصال بخادم SMTP بنجاح")
  have hl2 : (attach w (s.log w 327 .other "success" "تم الاتصال بخادم SMTP بنجاح")).job.emailList
      = x :: xs := by rw [a6]; exact hl
  obtain ⟨l1, l2, l3, l4, l5, l6, -⟩ := loop_enter w 0
    (attach w (s.log w 327 .other "success" "تم الاتصال بخادم SMTP بنجاح"))
    (by rw [hl2]; simp) (by rw [a5]; exact hs)
  refine ⟨?_, l2, ?_, l4.trans a3, l5.trans a4, l6.trans a2⟩
  · rw [l1]
    simp [hl2]
  · rw [l3]; exact hl2

theorem start_then_verify (w : World) (s0 : Sys) (body : Body)
    (h : (postSendEmails w body (.ok ()) s0).1.code = 200) :
    ∃ list email, body.emailList = some list ∧ list ≠ [] ∧
      (step w (step w s0 (.sendEmails body (.ok ()))) (.verifyDone (.ok ()))).phase =
        .sending 0 email ∧
      (step w (step w s0 (.sendEmails body (.ok ()))) (.verifyDone (.ok ()))).status.shouldStop
        = false ∧
      (step w (step w s0 (.sendEmails body (.ok ()))) (.verifyDone (.ok ()))).job.emailList
        = list ∧
      (step w (step w s0 (.sendEmails body (.ok ()))) (.verifyDone (.ok ()))).status.sent = 0 ∧
      (step w (step w s0 (.sendEmails body (.ok ()))) (.verifyDone (.ok ()))).status.failed = 0 ∧
      (step w (step w s0 (.sendEmails body (.ok ()))) (.verifyDone (.ok ()))).status.total
        = list.length := by
  unfold postSendEmails at h
  split_ifs at h with hr
  · simp at h
  · split at h
    · rename_i smtp content list hb1 hb2 hb3
      split_ifs at h with h1 h2
      · simp at h
      · simp at h
      · have hne : list ≠ [] := by
          intro h0; apply h1; simp [h0]
        obtain ⟨x, xs, rfl⟩ := List.exists_cons_of_ne_nil hne
        refine ⟨x :: xs, x, hb3, hne, ?_⟩
        have hs : ∃ t, step w s0 (.sendEmails body (.ok ())) = t ∧ t.phase = .verifying ∧
            t.job.emailList = x :: xs ∧ t.status.shouldStop = false ∧ t.status.sent = 0 ∧
            t.status.failed = 0 ∧ t.status.total = (x :: xs).length := by
          refine ⟨_, rfl, ?_⟩
          simp only [step, postSendEmails, hr, hb1, hb2, hb3, h1, h2]
          simp [sendEmailsInBackground]
        obtain ⟨t, ht, t1, t2, t3, t4, t5, t6⟩ := hs
        rw [ht]
        simp only [step, t1]
        obtain ⟨v1, v2, v3, v4, v5, v6⟩ := afterVerify_enter w t x xs t2 t3
        exact ⟨v1, v2, v3, v4.trans t4, v5.trans t5, v6.trans t6⟩
    · simp at h

theorem recent_push {α : Type} (l : List α) (x : α) : Recent 1 x (keep100 (l ++ [x])) := by
  unfold keep100
  split_ifs with h
  · cases l with
    | nil => simp at h
    | cons y ys => exact ⟨ys, [], by simp, by simp⟩
  · exact ⟨l, [], rfl, by simp⟩

theorem recent_mono {α : Type} {k : Nat} {x : α} {l : List α} (h : Recent k x l) :
    Recent (k + 1) x l := by
  obtain ⟨pre, suf, h1, h2⟩ := h
  exact ⟨pre, suf, h1, by omega⟩

theorem recent_keep100 {α : Type} {k : Nat} {x : α} {l : List α} (y : α) (h : Recent k x l)
    (hk : k < 99) : Recent (k + 1) x (keep100 (l ++ [y])) := by
  obtain ⟨pre, suf, h1, h2⟩ := h
  subst h1
  unfold keep100
  split_ifs with hl
  · cases pre with
    | nil => simp at hl; omega
    | cons p ps => exact ⟨ps, suf ++ [y], by simp, by simp; omega⟩
  · exact ⟨pre, suf ++ [y], by simp, by simp; omega⟩

theorem recent_mem {α : Type} {k : Nat} {x : α} {l : List α} (h : Recent k x l) : x ∈ l := by
  obtain ⟨pre, suf, h1, -⟩ := h
  rw [h1]
  simp

theorem recent_log {k : Nat} {x : LogEntry} (w : World) (l : Nat) (o : Origin) (t m : String)
    (s : Sys) (h : Recent k x s.status.logs) (hk : k < 99) :
    Recent (k + 1) x (s.log w l o t m).status.logs := by
  rw [log_logs]
  exact recent_keep100 _ h hk

theorem recent_finish {x : LogEntry} (w : World) (s : Sys) (h : Recent 1 x s.status.logs) :
    Recent 4 x (finish w s).status.logs := by
  have h1 : Recent 2 x (closeTransport w s).status.logs := by
    unfold closeTransport
    split_ifs
    · exact recent_mono h
    · exact recent_log _ _ _ _ _ _ h (by omega)
  have h2 : Recent 3 x (cleanup w (closeTransport w s)).status.logs := by
    unfold cleanup
    split
    · split_ifs
      · exact recent_mono h1
      · exact recent_log _ _ _ _ _ _ h1 (by omega)
      · exact recent_mono h1
    · exact recent_mono h1
  unfold finish summary
  simp only
  split_ifs
  · exact recent_log _ _ _ _ _ _ h2 (by omega)
  · exact recent_log _ _ _ _ _ _ h2 (by omega)

theorem finished_stays (w : World) (s : Sys) (e : Event) (hp : s.phase = .finished)
    (he : ∀ body create, e ≠ .sendEmails body create) :
    (step w s e).phase = .finished ∧ (step w s e).effects = s.effects ∧
    (step w s e).status.isRunning = s.status.isRunning ∧
    (step w s e).status.sent = s.status.sent ∧ (step w s e).status.failed = s.status.failed := by
  cases e with
  | sendEmails body create => exact absurd rfl (he body create)
  | verifyDone r => simp [step, hp]
  | sendMailDone r => simp [step, hp]
  | delayDone => simp [step, hp]
  | stopSending =>
    simp only [step, postStopSending]
    split_ifs <;> simp [hp]
  | clearLogs => simp [step, postClearLogs, hp]
  | uploadEmails file =>
    simp only [step, postUploadEmails]
    split <;> simp [hp]
  | uploadPdf file =>
    simp only [step, postUploadPdf]
    split <;> simp [hp]
  | listening port => simp [step, hp]
  | sigterm =>
    simp only [step]
    split_ifs <;> simp [hp]
  | sigint =>
    simp only [step]
    split_ifs <;> simp [hp]
  | uncaughtException message => simp [step, hp]
  | unhandledRejection reason => simp [step, hp]

theorem finished_run (later : List (World × Event)) :
    ∀ s : Sys, s.phase = .finished →
      (∀ we ∈ later, ∀ body create, we.2 ≠ .sendEmails body create) →
      (run s later).phase = .finished ∧ (run s later).effects = s.effects ∧
      (run s later).status.isRunning = s.status.isRunning ∧
      (run s later).status.sent = s.status.sent ∧
      (run s later).status.failed = s.status.failed := by
  induction later with
  | nil => intro s hp _; exact ⟨hp, rfl, rfl, rfl, rfl⟩
  | cons we rest ih =>
    intro s hp hq
    obtain ⟨f1, f2, f3, f4, f5⟩ := finished_stays we.1 s we.2 hp (hq we (by simp))
    obtain ⟨g1, g2, g3, g4, g5⟩ := ih (step we.1 s we.2) f1
      (fun x hx => hq x (List.mem_cons_of_mem _ hx))
    exact ⟨g1, g2.trans f2, g3.trans f3, g4.trans f4, g5.trans f5⟩

theorem loopOrigins_initial_succ (k : Nat) : loopOrigins k <+: loopOrigins (k + 1) :=
  ⟨[.info k, .outcome k], rfl⟩

theorem loopOrigins_initial {k n : Nat} (h : k ≤ n) : loopOrigins k <+: loopOrigins n := by
  induction n with
  | zero =>
    have : k = 0 := by omega
    subst this
    exact List.prefix_refl _
  | succ m ih =>
    rcases Nat.lt_or_ge m k with h1 | h1
    · have : k = m + 1 := by omega
      subst this
      exact List.prefix_refl _
    · exact (ih h1).trans (loopOrigins_initial_succ m)

theorem loopOrigins_rank_lt (k : Nat) : ∀ o ∈ loopOrigins k, o.rank < 2 * k + 1 := by
  induction k with
  | zero => intro o ho; simp [loopOrigins] at ho
  | succ m ih =>
    intro o ho
    simp only [loopOrigins, List.mem_append, List.mem_cons, List.mem_singleton,
      List.not_mem_nil, or_false] at ho
    rcases ho with h | h | h
    · have := ih o h; omega
    · subst h; simp only [Origin.rank]; omega
    · subst h; simp only [Origin.rank]; omega

theorem loopOrigins_pairwise (k : Nat) :
    (loopOrigins k).Pairwise (fun o o' => o.rank < o'.rank) := by
  induction k with
  | zero => simp [loopOrigins]
  | succ m ih =>
    simp only [loopOrigins]
    rw [List.pairwise_append]
    refine ⟨ih, by simp [Origin.rank], ?_⟩
    intro a ha b hb
    have := loopOrigins_rank_lt m a ha
    simp only [List.mem_cons, List.mem_singleton, List.not_mem_nil, or_false] at hb
    rcases hb with h | h
    · subst h; show a.rank < 2 * m + 1; omega
    · subst h; show a.rank < 2 * m + 2; omega

theorem expectedOrigins_initial {s : Sys} (h : Core s) :
    expectedOrigins s <+: loopOrigins s.job.emailList.length := by
  have hle := core_le h
  unfold Core at h
  obtain ⟨ht, h2⟩ := h
  rw [ht] at hle
  cases hp : s.phase with
  | sending i email =>
    rw [hp] at h2
    obtain ⟨-, hc, he, -⟩ := h2
    have hi : i < s.job.emailList.length := by
      rcases Nat.lt_or_ge i s.job.emailList.length with h | h
      · exact h
      · rw [List.getElem?_eq_none h] at he; cases he
    simp only [expectedOrigins, hp]
    have h1 : loopOrigins i ++ [Origin.info i] <+: loopOrigins (i + 1) :=
      ⟨[.outcome i], by simp [loopOrigins]⟩
    exact h1.trans (loopOrigins_initial hi)
  | idle => simp only [expectedOrigins, hp]; exact loopOrigins_initial hle
  | verifying => simp only [expectedOrigins, hp]; exact loopOrigins_initial hle
  | delaying i => simp only [expectedOrigins, hp]; exact loopOrigins_initial hle
  | connectFailed => simp only [expectedOrigins, hp]; exact loopOrigins_initial hle
  | finished => simp only [expectedOrigins, hp]; exact loopOrigins_initial hle

theorem attempted_initial {s : Sys} (h : Core s) : attempted s <+: s.job.emailList := by
  unfold Core at h
  obtain ⟨-, h2⟩ := h
  cases hp : s.phase with
  | idle => rw [hp] at h2; rw [h2.2.2.2]; exact List.nil_prefix
  | verifying => rw [hp] at h2; rw [h2.2.2.2]; exact List.nil_prefix
  | sending i email => rw [hp] at h2; rw [h2.2.2.2]; exact List.take_prefix _ _
  | delaying i => rw [hp] at h2; rw [h2.2.2.2]; exact List.take_prefix _ _
  | connectFailed => rw [hp] at h2; rw [h2.2.2.2]; exact List.nil_prefix
  | finished => rw [hp] at h2; rw [h2.2.2.1]; exact List.take_prefix _ _

theorem foldl_setAdd_nodup (l : List String) :
    ∀ acc : List String, acc.Nodup → (l.foldl setAdd acc).Nodup := by
  induction l with
  | nil => intro acc h; exact h
  | cons x xs ih =>
    intro acc h
    simp only [List.foldl_cons]
    apply ih
    unfold setAdd
    split_ifs with hx
    · exact h
    · exact List.Nodup.append h (List.nodup_singleton x) (by simpa using hx)

theorem mem_foldl_setAdd (l : List String) :
    ∀ (acc : List String) (x : String), x ∈ l.foldl setAdd acc ↔ x ∈ acc ∨ x ∈ l := by
  induction l with
  | nil => intro acc x; simp
  | cons y ys ih =>
    intro acc x
    simp only [List.foldl_cons, ih, List.mem_cons]
    unfold setAdd
    split_ifs with hy
    · constructor
      · rintro (h | h)
        · exact Or.inl h
        · exact Or.inr (Or.inr h)
      · rintro (h | h | h)
        · exact Or.inl h
        · subst h; exact Or.inl hy
        · exact Or.inr h
    · simp only [List.mem_append, List.mem_singleton]
      tauto

theorem foldl_setAdd_extends (l : List String) :
    ∀ acc : List String, acc <+: l.foldl setAdd acc := by
  induction l with
  | nil => intro acc; exact List.prefix_refl _
  | cons x xs ih =>
    intro acc
    simp only [List.foldl_cons]
    refine List.IsPrefix.trans ?_ (ih _)
    unfold setAdd
    split_ifs
    · exact List.prefix_refl _
    · exact List.prefix_append _ _

theorem uniqueOf_nodup (l : List String) : (uniqueOf l).Nodup :=
  foldl_setAdd_nodup l [] List.nodup_nil

theorem mem_uniqueOf (l : List String) (x : String) : x ∈ uniqueOf l ↔ x ∈ l := by
  simp [uniqueOf, mem_foldl_setAdd]

/-- What `uniqueOf` yields around the first occurrence of `b`. -/
theorem uniqueOf_first (p rest : List String) (b : String) (hb : b ∉ p) :
    uniqueOf p ++ [b] <+: uniqueOf (p ++ b :: rest) := by
  unfold uniqueOf
  rw [List.foldl_append, List.foldl_cons]
  have : setAdd (List.foldl setAdd [] p) b = List.foldl setAdd [] p ++ [b] := by
    unfold setAdd
    rw [if_neg]
    intro h
    exact hb ((mem_uniqueOf p b).1 h)
  rw [this]
  exact foldl_setAdd_extends _ _

theorem uniqueOf_filter_order_aux (P : String → Bool) (l : List String) (a b : String)
    (ha : a ∈ uniqueOf (l.filter P)) (hb : b ∈ uniqueOf (l.filter P))
    (h : List.indexOf a l < List.indexOf b l) :
    List.indexOf a (uniqueOf (l.filter P)) < List.indexOf b (uniqueOf (l.filter P)) := by
  have hbl : b ∈ l := (List.mem_filter.1 ((mem_uniqueOf _ _).1 hb)).1
  have hPa : P a = true := (List.mem_filter.1 ((mem_uniqueOf _ _).1 ha)).2
  have hPb : P b = true := (List.mem_filter.1 ((mem_uniqueOf _ _).1 hb)).2
  obtain ⟨p, rest, hl, hbp⟩ := List.eq_append_cons_of_mem hbl
  have hib : List.indexOf b l = p.length := by
    rw [hl, List.indexOf_append_of_not_mem hbp, List.indexOf_cons_self]
    rfl
  have hap : a ∈ p := by
    by_contra hnot
    rw [hib, hl, List.indexOf_append_of_not_mem hnot] at h
    omega
  have hfil : l.filter P = p.filter P ++ b :: rest.filter P := by
    rw [hl, List.filter_append, List.filter_cons, if_pos hPb]
  have hbU : b ∉ p.filter P := fun hx => hbp (List.mem_filter.1 hx).1
  obtain ⟨t, ht⟩ := uniqueOf_first (p.filter P) (rest.filter P) b hbU
  rw [hfil, ← ht]
  have haU : a ∈ uniqueOf (p.filter P) :=
    (mem_uniqueOf _ _).2 (List.mem_filter.2 ⟨hap, hPa⟩)
  have hbU2 : b ∉ uniqueOf (p.filter P) := fun hx => hbU ((mem_uniqueOf _ _).1 hx)
  rw [List.append_assoc, List.indexOf_append_of_mem haU, List.indexOf_append_of_not_mem hbU2]
  have := List.indexOf_lt_length.2 haU
  omega

theorem uniqueOf_filter_order (P : String → Bool) (l : List String) (a b : String)
    (ha : a ∈ uniqueOf (l.filter P)) (hb : b ∈ uniqueOf (l.filter P)) :
    List.indexOf a (uniqueOf (l.filter P)) < List.indexOf b (uniqueOf (l.filter P)) ↔
      List.indexOf a l < List.indexOf b l := by
  have hal : a ∈ l := (List.mem_filter.1 ((mem_uniqueOf _ _).1 ha)).1
  have hbl : b ∈ l := (List.mem_filter.1 ((mem_uniqueOf _ _).1 hb)).1
  constructor
  · intro h
    rcases Nat.lt_trichotomy (List.indexOf a l) (List.indexOf b l) with h1 | h1 | h1
    · exact h1
    · have : a = b := (List.indexOf_inj hal hbl).1 h1
      subst this
      omega
    · have := uniqueOf_filter_order_aux P l b a hb ha h1
      omega
  · exact uniqueOf_filter_order_aux P l a b ha hb

theorem isAddrPart_iff (cs : List Char) :
    isAddrPart cs = true ↔ cs ≠ [] ∧ ∀ c ∈ cs, isJsSpace c = false ∧ c ≠ '@' := by
  unfold isAddrPart isAddrChar
  cases cs with
  | nil => simp
  | cons x xs => simp

/-- The pattern cuts the text into three parts around an `@` and a `.`. -/
theorem matchesEmailRegex_iff_split (cs : List Char) :
    matchesEmailRegex cs = true ↔
      ∃ l d t, cs = l ++ '@' :: (d ++ '.' :: t) ∧ isAddrPart l = true ∧
        isAddrPart d = true ∧ isAddrPart t = true := by
  unfold matchesEmailRegex
  simp only [List.any_eq_true, List.mem_range, Bool.and_eq_true, decide_eq_true_eq,
    beq_iff_eq]
  constructor
  · rintro ⟨i, hi, j, hj, ⟨⟨⟨⟨hij, hci⟩, hcj⟩, hl⟩, hd⟩, ht⟩
    refine ⟨cs.take i, (cs.take j).drop (i + 1), cs.drop (j + 1), ?_, hl, hd, ht⟩
    have h1 : cs = cs.take j ++ cs[j] :: cs.drop (j + 1) := by
      conv_lhs => rw [← List.take_append_drop j cs, List.drop_eq_getElem_cons hj]
    have hij2 : i < (cs.take j).length := by
      rw [List.length_take]; omega
    have h2 : cs.take j = (cs.take j).take i ++ (cs.take j)[i] :: (cs.take j).drop (i + 1) := by
      conv_lhs => rw [← List.take_append_drop i (cs.take j), List.drop_eq_getElem_cons hij2]
    have h3 : (cs.take j).take i = cs.take i := by
      rw [List.take_take]
      congr 1
      omega
    have h4 : (cs.take j)[i] = '@' := by
      rw [List.getElem_take]
      rw [List.getElem?_eq_getElem hi] at hci
      exact Option.some.inj hci
    have h5 : cs[j] = '.' := by
      rw [List.getElem?_eq_getElem hj] at hcj
      exact Option.some.inj hcj
    rw [h3, h4] at h2
    conv_lhs => rw [h1, h2, h5]
    simp
  · rintro ⟨l, d, t, rfl, hl, hd, ht⟩
    refine ⟨l.length, by simp, l.length + 1 + d.length, by simp; omega, ?_⟩
    refine ⟨⟨⟨⟨⟨by omega, by rw [List.getElem?_append_right (Nat.le_refl _)]; simp⟩, ?_⟩, ?_⟩, ?_⟩, ?_⟩
    · rw [List.getElem?_append_right (by omega)]
      have : l.length + 1 + d.length - l.length = d.length + 1 := by omega
      rw [this, List.getElem?_cons_succ, List.getElem?_append_right (by omega)]
      simp
    · simpa using hl
    · have : List.drop (l.length + 1) (List.take (l.length + 1 + d.length)
          (l ++ '@' :: (d ++ '.' :: t))) = d := by
        rw [List.take_append_eq_append_take, List.drop_append_eq_append_drop]
        have e1 : l.length + 1 + d.length - l.length = d.length + 1 := by omega
        have e2 : l.length + 1 - (List.take (l.length + 1 + d.length) l).length = 1 := by
          rw [List.length_take]; omega
        rw [e1, e2]
        simp
      rw [this]
      exact hd
    · have : List.drop (l.length + 1 + d.length + 1) (l ++ '@' :: (d ++ '.' :: t)) = t := by
        rw [List.drop_append_eq_append_drop]
        have e1 : l.length + 1 + d.length + 1 - l.length = d.length + 1 + 1 := by omega
        rw [e1, List.drop_eq_nil_of_le (by omega)]
        simp
      rw [this]
      exact ht

theorem isJsSpace_at : isJsSpace '@' = false := by decide

theorem isJsSpace_dot : isJsSpace '.' = false := by decide

theorem split_iff_shape (cs : List Char) :
    (∃ l d t, cs = l ++ '@' :: (d ++ '.' :: t) ∧ isAddrPart l = true ∧
        isAddrPart d = true ∧ isAddrPart t = true) ↔ AddressShape cs := by
  constructor
  · rintro ⟨l, d, t, rfl, hl, hd, ht⟩
    rw [isAddrPart_iff] at hl hd ht
    refine ⟨?_, ?_, l, d ++ '.' :: t, rfl, hl.1, d.length, ?_, ?_, ?_⟩
    · intro c hc
      simp only [List.mem_append, List.mem_cons] at hc
      rcases hc with h | h | h | h | h
      · exact (hl.2 c h).1
      · subst h; exact isJsSpace_at
      · exact (hd.2 c h).1
      · subst h; exact isJsSpace_dot
      · exact (ht.2 c h).1
    · have c1 : l.count '@' = 0 := List.count_eq_zero.2 fun h => (hl.2 _ h).2 rfl
      have c2 : d.count '@' = 0 := List.count_eq_zero.2 fun h => (hd.2 _ h).2 rfl
      have c3 : t.count '@' = 0 := List.count_eq_zero.2 fun h => (ht.2 _ h).2 rfl
      have c4 : List.count '@' ('.' :: t) = 0 := by
        rw [List.count_cons_of_ne (by decide)]; exact c3
      rw [List.count_append, List.count_cons_self, List.count_append, c1, c2, c4]
    · exact List.length_pos.2 hd.1
    · have := List.length_pos.2 ht.1
      simp; omega
    · rw [List.getElem?_append_right (Nat.le_refl _)]; simp
  · rintro ⟨hsp, hcount, loc, dom, rfl, hloc, k, hk0, hk1, hk⟩
    have hk2 : k < dom.length := by omega
    have hsplit : dom = dom.take k ++ '.' :: dom.drop (k + 1) := by
      conv_lhs => rw [← List.take_append_drop k dom, List.drop_eq_getElem_cons hk2]
      rw [List.getElem?_eq_getElem hk2] at hk
      rw [Option.some.inj hk]
    rw [List.count_append, List.count_cons_self] at hcount
    have c1 : loc.count '@' = 0 := by omega
    have c2 : dom.count '@' = 0 := by omega
    rw [List.count_eq_zero] at c1 c2
    refine ⟨loc, dom.take k, dom.drop (k + 1), by rw [← hsplit], ?_, ?_, ?_⟩
    · rw [isAddrPart_iff]
      refine ⟨hloc, fun c hc => ⟨hsp c (by simp [hc]), ?_⟩⟩
      rintro rfl
      exact c1 hc
    · rw [isAddrPart_iff]
      refine ⟨?_, fun c hc => ?_⟩
      · intro h0
        have := congrArg List.length h0
        rw [List.length_take, List.length_nil] at this
        omega
      · have hd : c ∈ dom := List.mem_of_mem_take hc
        refine ⟨hsp c (by simp [hd]), ?_⟩
        rintro rfl
        exact c2 hd
    · rw [isAddrPart_iff]
      refine ⟨?_, fun c hc => ?_⟩
      · intro h0
        have := congrArg List.length h0
        rw [List.length_drop, List.length_nil] at this
        omega
      · have hd : c ∈ dom := List.mem_of_mem_drop hc
        refine ⟨hsp c (by simp [hd]), ?_⟩
        rintro rfl
        exact c2 hd

theorem isValidEmail_iff_shape (email : String) :
    isValidEmail email = true ↔ AddressShape email.data := by
  unfold isValidEmail
  rw [matchesEmailRegex_iff_split, split_iff_shape]

theorem isValidEmail_ne_empty (x : String) (h : isValidEmail x = true) : x ≠ "" := by
  rintro rfl
  revert h
  decide

theorem stopAfterSecondSuccess_end (a b c d e : String) :
    (run init (stopAfterSecondSuccess a b c d e)).status.isRunning = false ∧
    (run init (stopAfterSecondSuccess a b c d e)).phase = .finished ∧
    (run init (stopAfterSecondSuccess a b c d e)).status.sent +
      (run init (stopAfterSecondSuccess a b c d e)).status.failed = 2 ∧
    (run init (stopAfterSecondSuccess a b c d e)).job.emailList = [a, b, c, d, e] := by
  simp [stopAfterSecondSuccess, run, calmly, step, postSendEmails, sampleBody,
    sendEmailsInBackground, init, initialStatus, afterVerify, attach, loop, afterSend,
    recordOutcome, finish, closeTransport, cleanup, summary, calm, postStopSending]

theorem stopInThirdSend_end (a b c d e : String) (r : Except JsError Unit) :
    (run init (stopInThirdSend a b c d e r)).status.isRunning = false ∧
    (run init (stopInThirdSend a b c d e r)).phase = .finished ∧
    (run init (stopInThirdSend a b c d e r)).status.sent +
      (run init (stopInThirdSend a b c d e r)).status.failed = 3 ∧
    (run init (stopInThirdSend a b c d e r)).job.emailList = [a, b, c, d, e] := by
  cases r <;>
  simp [stopInThirdSend, run, calmly, step, postSendEmails, sampleBody,
    sendEmailsInBackground, init, initialStatus, afterVerify, attach, loop, afterSend,
    recordOutcome, finish, closeTransport, cleanup, summary, calm, postStopSending]

/-! ## The claims -/

/-- C3: on a log of at most 100 entries `addLog` leaves the last
`min (old length + 1) 100` entries of the old log followed by the new entry,
in the same order, and touches no other field; the log of the server never
exceeds 100 entries whatever the schedule; and on a log of exactly 100
entries the result is the old log without its first (oldest) entry, followed
by the new entry. -/
theorem addLog_keeps_last_100 (timestamp type message : String) (st : SendingStatus)
    (schedule : List (World × Event)) (h : st.logs.length ≤ 100) :
    (addLog timestamp type message st).logs.length = min (st.logs.length + 1) 100 ∧
    (addLog timestamp type message st).logs =
      lastN (min (st.logs.length + 1) 100)
        (st.logs ++ [{ type := type, message := message, timestamp := timestamp }]) ∧
    addLog timestamp type message st =
      { st with logs := (addLog timestamp type message st).logs } ∧
    (run init schedule).status.logs.length ≤ 100 ∧
    (st.logs.length = 100 →
      (addLog timestamp type message st).logs =
        st.logs.drop 1 ++ [{ type := type, message := message, timestamp := timestamp }]) := by
  refine ⟨?_, ?_, rfl, (inv_run schedule).2.2.1, ?_⟩
  · unfold addLog
    simp only [List.length_append, List.length_singleton]
    split_ifs with h1
    · simp; omega
    · simp; omega
  · unfold addLog lastN
    simp only [List.length_append, List.length_singleton]
    split_ifs with h1
    · have : st.logs.length + 1 - min (st.logs.length + 1) 100 = 1 := by omega
      rw [this]
      simp
    · have : st.logs.length + 1 - min (st.logs.length + 1) 100 = 0 := by omega
      rw [this]
      simp
  · intro h100
    unfold addLog
    simp only [List.length_append, List.length_singleton, h100]
    cases hl : st.logs with
    | nil => simp [hl] at h100
    | cons x xs => simp

/-- C3, at a full log: the 101st entry evicts the oldest one. -/
theorem addLog_keeps_last_100_witness :
    ({ initialStatus with logs := List.replicate 100 ⟨"info", "old", "t0"⟩ } :
        SendingStatus).logs.length ≤ 100 ∧
    (addLog "t1" "info" "new"
        { initialStatus with logs := List.replicate 100 ⟨"info", "old", "t0"⟩ }).logs.length
      = min (100 + 1) 100 :=
  ⟨by simp, by
    have := (addLog_keeps_last_100 "t1" "info" "new"
      { initialStatus with logs := List.replicate 100 ⟨"info", "old", "t0"⟩ } [] (by simp)).1
    simpa using this⟩

/-- C4: while a campaign is running, `POST /send-emails` answers 400 with the
busy message whatever the body, and leaves the server exactly as it was: the
status record (total, sent, failed, currentEmail, logs, shouldStop), the
suspended job and the recorded calls, so that no second job is launched. -/
theorem start_rejected_while_running (w : World) (body : Body) (create : Except JsError Unit)
    (s : Sys) (h : s.status.isRunning = true) :
    (postSendEmails w body create s).1 =
      { code := 400, success := false, message := "عملية إرسال أخرى قيد التنفيذ" } ∧
    (postSendEmails w body create s).2 = s ∧
    step w s (.sendEmails body create) = s := by
  simp [step, postSendEmails, h]

/-- C4, on a campaign of two recipients suspended in its first send. -/
theorem start_rejected_while_running_witness :
    (run init (calmly [.sendEmails (sampleBody ["a@x.org", "b@x.org"]) (.ok ()),
        .verifyDone (.ok ())])).status.isRunning = true ∧
    (postSendEmails calm (sampleBody ["c@x.org"]) (.ok ())
        (run init (calmly [.sendEmails (sampleBody ["a@x.org", "b@x.org"]) (.ok ()),
          .verifyDone (.ok ())]))).2 =
      run init (calmly [.sendEmails (sampleBody ["a@x.org", "b@x.org"]) (.ok ()),
        .verifyDone (.ok ())]) :=
  ⟨by decide, (start_rejected_while_running calm (sampleBody ["c@x.org"]) (.ok ())
    (run init (calmly [.sendEmails (sampleBody ["a@x.org", "b@x.org"]) (.ok ()),
      .verifyDone (.ok ())])) (by decide)).2.1⟩

/-- C9, as the claim states it, fails: after `POST /clear-logs` on the server
at start-up the log is not empty, it holds one entry. -/
theorem clearLogs_not_empty :
    (postClearLogs calm init).2.status.logs ≠ [] ∧
    (postClearLogs calm init).2.status.logs.length = 1 := by
  decide

/-- C9, amended: after `POST /clear-logs` the log holds exactly one entry, the
info entry that records the clearing, whatever it held before, and every other
field of the status record is unchanged. -/
theorem clearLogs_leaves_notice (w : World) (s : Sys) :
    (postClearLogs w s).2.status.logs =
      [{ type := "info", message := "تم مسح السجلات", timestamp := w.now 574 }] ∧
    (postClearLogs w s).2.status.isRunning = s.status.isRunning ∧
    (postClearLogs w s).2.status.total = s.status.total ∧
    (postClearLogs w s).2.status.sent = s.status.sent ∧
    (postClearLogs w s).2.status.failed = s.status.failed ∧
    (postClearLogs w s).2.status.currentEmail = s.status.currentEmail ∧
    (postClearLogs w s).2.status.shouldStop = s.status.shouldStop ∧
    step w s .clearLogs = (postClearLogs w s).2 := by
  refine ⟨?_, rfl, rfl, rfl, rfl, rfl, rfl, rfl⟩
  simp [postClearLogs, log_logs, keep100]

/-- C7, as the claim states it, fails: for the error nodemailer raises when
the server refuses the recipient with code 550 (`code = 'EENVELOPE'`,
`responseCode = 550`) the reason is the envelope text, not the text
of a mailbox that does not exist. -/
theorem sendErrorMsg_550_not_invalidRecipient :
    rejected550.responseCode = some 550 ∧
    sendErrorMsg rejected550 = "خطأ في عنوان الإيميل" ∧
    sendErrorMsg rejected550 ≠ "عنوان الإيميل غير موجود" := by
  decide

/-- C7, amended: for every send failure whose response code is 550 and whose
error code is neither `EMESSAGE` nor `EENVELOPE`, whatever its message, the
reason is the text of a mailbox that does not exist; the failed counter grows
by one, the sent counter is unchanged and the error entry written for the
recipient carries that reason. And in a campaign of three recipients whose
second send fails so, the end is `sent = 2`, `failed = 1`, and the error
entry of the second recipient with that reason is held in the log between
the entries of the first and of the third recipient. -/
theorem sendErrorMsg_550 (error : JsError) (w : World) (i : Nat) (email a b c : String)
    (s : Sys) (h550 : error.responseCode = some 550) (h1 : error.code ≠ some "EMESSAGE")
    (h2 : error.code ≠ some "EENVELOPE") :
    sendErrorMsg error = "عنوان الإيميل غير موجود" ∧
    (recordOutcome w i email (.error error) s).status.failed = s.status.failed + 1 ∧
    (recordOutcome w i email (.error error) s).status.sent = s.status.sent ∧
    (recordOutcome w i email (.error error) s).status.logs.getLast? =
      some { type := "error", message := failureMsg email "عنوان الإيميل غير موجود",
             timestamp := w.now 400 } ∧
    (run init (calmly [.sendEmails (sampleBody [a, b, c]) (.ok ()), .verifyDone (.ok ()),
        .sendMailDone (.ok ()), .delayDone, .sendMailDone (.error error), .delayDone,
        .sendMailDone (.ok ())])).status.sent = 2 ∧
    (run init (calmly [.sendEmails (sampleBody [a, b, c]) (.ok ()), .verifyDone (.ok ()),
        .sendMailDone (.ok ()), .delayDone, .sendMailDone (.error error), .delayDone,
        .sendMailDone (.ok ())])).status.failed = 1 ∧
    (((run init (calmly [.sendEmails (sampleBody [a, b, c]) (.ok ()), .verifyDone (.ok ()),
        .sendMailDone (.ok ()), .delayDone, .sendMailDone (.error error), .delayDone,
        .sendMailDone (.ok ())])).status.logs.map fun e => (e.type, e.message)).drop 5).take 6 =
      [("info", infoMsg 0 3 a), ("success", successMsg a),
       ("info", infoMsg 1 3 b), ("error", failureMsg b "عنوان الإيميل غير موجود"),
       ("info", infoMsg 2 3 c), ("success", successMsg c)] := by
  have hm : sendErrorMsg error = "عنوان الإيميل غير موجود" := by
    simp [sendErrorMsg, h550, h1, h2]
  refine ⟨hm, rfl, rfl, ?_, ?_, ?_, ?_⟩
  · simp only [recordOutcome, log_logs, hm]
    exact getLast?_keep100_push _ _
  · simp [run, calmly, step, postSendEmails, sampleBody, sendEmailsInBackground, init,
      initialStatus, afterVerify, attach, loop, afterSend, recordOutcome, finish,
      closeTransport, cleanup, summary, calm]
  · simp [run, calmly, step, postSendEmails, sampleBody, sendEmailsInBackground, init,
      initialStatus, afterVerify, attach, loop, afterSend, recordOutcome, finish,
      closeTransport, cleanup, summary, calm]
  · simp [run, calmly, step, postSendEmails, sampleBody, sendEmailsInBackground, init,
      initialStatus, afterVerify, attach, loop, afterSend, recordOutcome, finish,
      closeTransport, cleanup, summary, calm, Sys.log, addLog, Sys.emit, hm]

/-- C7, on a 550 answer that carries no error code. -/
theorem sendErrorMsg_550_witness :
    (⟨none, some 550, "550 No such user"⟩ : JsError).responseCode = some 550 ∧
    sendErrorMsg ⟨none, some 550, "550 No such user"⟩ = "عنوان الإيميل غير موجود" :=
  ⟨rfl, (sendErrorMsg_550 ⟨none, some 550, "550 No such user"⟩ calm 1 "b@x.org" "a@x.org"
    "b@x.org" "c@x.org" init rfl (by decide) (by decide)).1⟩

/-- C8, the code at the failing input: whatever the error and the state, the
`catch` of a failed verification clears `isRunning` and returns without any
call on the transporter; in the campaign of one recipient whose verification
fails on authentication, a transporter was built and the run ends with
`isRunning = false` and no `close` among the calls made. -/
theorem connectFailed_without_close (w : World) (error : JsError) (s : Sys) :
    (afterVerify w (.error error) s).effects = s.effects ∧
    (afterVerify w (.error error) s).status.isRunning = false ∧
    (afterVerify w (.error error) s).phase = .connectFailed ∧
    (run init (calmly [.sendEmails (sampleBody ["a@x.org"]) (.ok ()),
      .verifyDone (.error ⟨some "EAUTH", none, "Invalid login"⟩)])).effects =
        [.createTransporter, .verify] ∧
    Effect.close ∉ (run init (calmly [.sendEmails (sampleBody ["a@x.org"]) (.ok ()),
      .verifyDone (.error ⟨some "EAUTH", none, "Invalid login"⟩)])).effects ∧
    (run init (calmly [.sendEmails (sampleBody ["a@x.org"]) (.ok ()),
      .verifyDone (.error ⟨some "EAUTH", none, "Invalid login"⟩)])).status.isRunning = false := by
  refine ⟨rfl, rfl, rfl, ?_, ?_, ?_⟩ <;> decide

/-- C2, as the claim states it, fails: in the campaign of one recipient whose
verification fails, no stop is requested, the job has ended with
`isRunning = false`, and `sent + failed` is 0 while `total` is 1. -/
theorem connectFailed_counts_nobody :
    (run init (calmly [.sendEmails (sampleBody ["a@x.org"]) (.ok ()),
      .verifyDone (.error ⟨some "EAUTH", none, "Invalid login"⟩)])).status.isRunning = false ∧
    (run init (calmly [.sendEmails (sampleBody ["a@x.org"]) (.ok ()),
      .verifyDone (.error ⟨some "EAUTH", none, "Invalid login"⟩)])).status.shouldStop = false ∧
    (run init (calmly [.sendEmails (sampleBody ["a@x.org"]) (.ok ()),
      .verifyDone (.error ⟨some "EAUTH", none, "Invalid login"⟩)])).status.total = 1 ∧
    (run init (calmly [.sendEmails (sampleBody ["a@x.org"]) (.ok ()),
      .verifyDone (.error ⟨some "EAUTH", none, "Invalid login"⟩)])).status.sent +
    (run init (calmly [.sendEmails (sampleBody ["a@x.org"]) (.ok ()),
      .verifyDone (.error ⟨some "EAUTH", none, "Invalid login"⟩)])).status.failed ≠
    (run init (calmly [.sendEmails (sampleBody ["a@x.org"]) (.ok ()),
      .verifyDone (.error ⟨some "EAUTH", none, "Invalid login"⟩)])).status.total := by
  decide

/-- C1, as the claim states it, fails: in the campaign of two recipients
stopped during the first send, the step that resumes the job records the first
outcome and then runs the loop for the second recipient (`1 < 2`, the body is
entered with `shouldStop` set); that iteration increases neither counter, and
the job ends with `sent + failed = 1`. -/
theorem stopped_iteration_counts_nothing :
    step calm stoppedInFirstSend (.sendMailDone (.ok ())) =
      loop calm 1 (recordOutcome calm 0 "a@x.org" (.ok ()) stoppedInFirstSend) ∧
    1 < (recordOutcome calm 0 "a@x.org" (.ok ()) stoppedInFirstSend).job.emailList.length ∧
    (recordOutcome calm 0 "a@x.org" (.ok ()) stoppedInFirstSend).status.shouldStop = true ∧
    ¬ (((loop calm 1 (recordOutcome calm 0 "a@x.org" (.ok ()) stoppedInFirstSend)).status.sent =
          (recordOutcome calm 0 "a@x.org" (.ok ()) stoppedInFirstSend).status.sent + 1 ∧
        (loop calm 1 (recordOutcome calm 0 "a@x.org" (.ok ()) stoppedInFirstSend)).status.failed =
          (recordOutcome calm 0 "a@x.org" (.ok ()) stoppedInFirstSend).status.failed) ∨
       ((loop calm 1 (recordOutcome calm 0 "a@x.org" (.ok ()) stoppedInFirstSend)).status.sent =
          (recordOutcome calm 0 "a@x.org" (.ok ()) stoppedInFirstSend).status.sent ∧
        (loop calm 1 (recordOutcome calm 0 "a@x.org" (.ok ()) stoppedInFirstSend)).status.failed =
          (recordOutcome calm 0 "a@x.org" (.ok ()) stoppedInFirstSend).status.failed + 1)) ∧
    (step calm stoppedInFirstSend (.sendMailDone (.ok ()))).status.sent +
      (step calm stoppedInFirstSend (.sendMailDone (.ok ()))).status.failed = 1 := by
  refine ⟨?_, ?_, ?_, ?_, ?_⟩ <;> decide

/-- C1, amended: in every reachable state `sent + failed ≤ total`; the step
that resumes the job after a send, the part of a loop iteration that follows
the delivery attempt, increases exactly one of `sent` and `failed` by exactly
1 (`sent` on success, `failed` on failure) and leaves `total`; the code from
the loop test to the next `await` or to the end of the job, which holds the
iteration that finds `shouldStop` set and breaks, changes neither counter;
and every other step leaves both counters as they are, unless it is a start
request answered with 200, which opens a new campaign with both at 0: no step
of a campaign decreases a counter. -/
theorem counters_bounded_and_monotone (schedule : List (World × Event)) (w : World)
    (e : Event) :
    (run init schedule).status.sent + (run init schedule).status.failed
      ≤ (run init schedule).status.total ∧
    (∀ i email r, (run init schedule).phase = .sending i email → e = .sendMailDone r →
      (step w (run init schedule) e).status.total = (run init schedule).status.total ∧
      (((∃ u, r = .ok u) ∧
        (step w (run init schedule) e).status.sent = (run init schedule).status.sent + 1 ∧
        (step w (run init schedule) e).status.failed = (run init schedule).status.failed) ∨
       ((∃ error, r = .error error) ∧
        (step w (run init schedule) e).status.sent = (run init schedule).status.sent ∧
        (step w (run init schedule) e).status.failed =
          (run init schedule).status.failed + 1))) ∧
    (∀ i, (loop w i (run init schedule)).status.sent = (run init schedule).status.sent ∧
      (loop w i (run init schedule)).status.failed = (run init schedule).status.failed) ∧
    (((run init schedule).status.sent ≤ (step w (run init schedule) e).status.sent ∧
      (run init schedule).status.failed ≤ (step w (run init schedule) e).status.failed) ∨
     (∃ body create, e = .sendEmails body create ∧
        (postSendEmails w body create (run init schedule)).1.code = 200 ∧
        (step w (run init schedule) e).status.sent = 0 ∧
        (step w (run init schedule) e).status.failed = 0)) ∧
    ((∀ i email, (run init schedule).phase = .sending i email → ∀ r, e ≠ .sendMailDone r) →
     (∀ body create, e = .sendEmails body create →
        (postSendEmails w body create (run init schedule)).1.code ≠ 200) →
      (step w (run init schedule) e).status.sent = (run init schedule).status.sent ∧
      (step w (run init schedule) e).status.failed = (run init schedule).status.failed) := by
  have hinv := (inv_run schedule).1
  generalize run init schedule = s at *
  refine ⟨core_le hinv, ?_, ?_, ?_, ?_⟩
  · intro i email r hp he
    subst he
    simp only [step, hp]
    obtain ⟨a1, a2, a3⟩ := afterSend_counters w i email r s
    refine ⟨a3, ?_⟩
    rw [a1, a2]
    cases r with
    | ok u => exact Or.inl ⟨⟨u, rfl⟩, rfl, rfl⟩
    | error err => exact Or.inr ⟨⟨err, rfl⟩, rfl, rfl⟩
  · intro i
    exact ⟨(loop_counters w i s).1, (loop_counters w i s).2.1⟩
  · rcases step_counters w s e with ⟨i, email, r, hp, he, h1, h2, -⟩ | ⟨h1, h2⟩ | h
    · left
      rw [h1, h2]
      cases r with
      | ok u => exact ⟨Nat.le_succ _, Nat.le_refl _⟩
      | error err => exact ⟨Nat.le_refl _, Nat.le_succ _⟩
    · left
      rw [h1, h2]
      exact ⟨Nat.le_refl _, Nat.le_refl _⟩
    · exact Or.inr h
  · intro hs hb
    rcases step_counters w s e with ⟨i, email, r, hp, he, -⟩ | h | ⟨body, create, he, hc, -⟩
    · exact absurd he (hs i email hp r)
    · exact h
    · exact absurd hc (hb body create he)

/-- C1, amended, on the campaign of two recipients suspended in its first
send: the successful send raises `sent` from 0 to 1. -/
theorem counters_bounded_and_monotone_witness :
    (run init (calmly [.sendEmails (sampleBody ["a@x.org", "b@x.org"]) (.ok ()),
      .verifyDone (.ok ())])).phase = .sending 0 "a@x.org" ∧
    (step calm (run init (calmly [.sendEmails (sampleBody ["a@x.org", "b@x.org"]) (.ok ()),
      .verifyDone (.ok ())])) (.sendMailDone (.ok ()))).status.total =
    (run init (calmly [.sendEmails (sampleBody ["a@x.org", "b@x.org"]) (.ok ()),
      .verifyDone (.ok ())])).status.total :=
  ⟨by decide, ((counters_bounded_and_monotone
    (calmly [.sendEmails (sampleBody ["a@x.org", "b@x.org"]) (.ok ()), .verifyDone (.ok ())])
    calm (.sendMailDone (.ok ()))).2.1 0 "a@x.org" (.ok ()) (by decide) rfl).1⟩

/-- C2, amended: in every reachable state in which the job has run to its end
past the verification (phase `finished`; the campaign whose verification fails
ends in `connectFailed` with nobody counted) and `shouldStop` is not set,
`isRunning` is false, `sent + failed = total` and `sendMail` was called once
for every recipient of the list, in order. A failed send never ends the run:
when recipients remain and no stop is requested, the step that records the
failure suspends the job in the delay before the next recipient, still
running. And the job does reach that end: after a start request answered with
200, a verification that succeeds and one result, success or failure, for
each recipient, with nothing else happening, the job has finished with
`sent + failed = total`, the number of recipients. -/
theorem all_counted_unless_stopped (schedule : List (World × Event)) (w : World) (s0 : Sys)
    (body : Body) (results : List (Except JsError Unit)) :
    ((run init schedule).phase = .finished → (run init schedule).status.shouldStop = false →
      (run init schedule).status.isRunning = false ∧
      (run init schedule).status.sent + (run init schedule).status.failed =
        (run init schedule).status.total ∧
      attempted (run init schedule) = (run init schedule).job.emailList) ∧
    (∀ i email error, (run init schedule).phase = .sending i email →
      (run init schedule).status.shouldStop = false →
      i + 1 < (run init schedule).status.total →
      (step w (run init schedule) (.sendMailDone (.error error))).phase = .delaying i ∧
      (step w (run init schedule) (.sendMailDone (.error error))).status.isRunning = true) ∧
    ((postSendEmails w body (.ok ()) s0).1.code = 200 →
      results.length = (body.emailList.getD []).length →
      (run s0 (campaign w body results)).phase = .finished ∧
      (run s0 (campaign w body results)).status.isRunning = false ∧
      (run s0 (campaign w body results)).status.shouldStop = false ∧
      (run s0 (campaign w body results)).status.total = (body.emailList.getD []).length ∧
      (run s0 (campaign w body results)).status.sent +
        (run s0 (campaign w body results)).status.failed =
        (run s0 (campaign w body results)).status.total) := by
  refine ⟨?_, ?_, ?_⟩
  · have hinv := (inv_run schedule).1
    generalize run init schedule = s at *
    intro hp hs
    unfold Core at hinv
    rw [hp] at hinv
    obtain ⟨ht, hr, hle, ha, hstop, -⟩ := hinv
    have hn := hstop hs
    refine ⟨hr, by rw [ht]; exact hn, ?_⟩
    rw [ha, hn, List.take_length]
  · have hinv := (inv_run schedule).1
    generalize run init schedule = s at *
    intro i email error hp hs hi
    unfold Core at hinv
    rw [hp] at hinv
    obtain ⟨ht, hr, hc, he, ha⟩ := hinv
    simp only [step, hp]
    unfold afterSend
    obtain ⟨k1, k2, k3, k4, k5, k6⟩ := recordOutcome_facts w i email (.error error) s
    simp only [k5, k3, hs]
    rw [if_pos (by simp; omega)]
    exact ⟨rfl, k4.trans hr⟩
  · intro hcode hlen
    obtain ⟨list, email, hb, hne, t1, t2, t3, t4, t5, t6⟩ := start_then_verify w s0 body hcode
    simp only [hb, Option.getD_some] at hlen ⊢
    unfold campaign
    simp only [List.map_cons, run_cons]
    obtain ⟨g1, g2, g3, g4, g5⟩ := sendSteps_finish w results _ 0 email t1 t2
      (by rw [t3]; omega) (by
        intro h0; rw [h0] at hlen; exact hne (List.length_eq_zero.1 hlen.symm))
    refine ⟨g1, g2, g3, g5.trans t6, ?_⟩
    rw [g4, g5, t4, t5, t6]
    omega

/-- C2, amended, on the campaign of three recipients whose second send
fails: the job ends with nobody left uncounted. -/
theorem all_counted_unless_stopped_witness :
    (postSendEmails calm (sampleBody ["a@x.org", "b@x.org", "c@x.org"]) (.ok ()) init).1.code
      = 200 ∧
    (run init (campaign calm (sampleBody ["a@x.org", "b@x.org", "c@x.org"])
      [.ok (), .error rejected550, .ok ()])).phase = .finished ∧
    (run init (campaign calm (sampleBody ["a@x.org", "b@x.org", "c@x.org"])
      [.ok (), .error rejected550, .ok ()])).status.total = 3 :=
  ⟨by decide,
   ((all_counted_unless_stopped [] calm init (sampleBody ["a@x.org", "b@x.org", "c@x.org"])
      [.ok (), .error rejected550, .ok ()]).2.2 (by decide) rfl).1,
   ((all_counted_unless_stopped [] calm init (sampleBody ["a@x.org", "b@x.org", "c@x.org"])
      [.ok (), .error rejected550, .ok ()]).2.2 (by decide) rfl).2.2.2.1⟩

/-- C5: when `shouldStop` is set as the loop comes to the recipient of index
`i`, `sendMail` is called neither for that recipient nor, in whatever follows
short of a new start request, for a later one; `sent` and `failed` keep their
values; the stop notice of line 362 is in the log; and the job has ended:
`isRunning` is false. The loop comes there when the delay after the previous
recipient ends. In particular, in a campaign of five recipients whose first
two sends succeed and which is asked to stop during the delay that follows the
second success, the end of that delay ends the job with `isRunning = false`,
`sent + failed = 2 < 5` and `sendMail` called for the first two recipients
only; and when the stop request comes a little later, during the third send,
the job ends after that send with `sent + failed = 3 < 5` and `sendMail`
called for the first three recipients only: never for the fourth or fifth. -/
theorem stop_halts_the_loop (w : World) (i : Nat) (s : Sys) (later : List (World × Event))
    (a b c d e : String) (r : Except JsError Unit) (hstop : s.status.shouldStop = true)
    (hi : i < s.job.emailList.length)
    (hlater : ∀ we ∈ later, ∀ body create, we.2 ≠ .sendEmails body create) :
    attempted (loop w i s) = attempted s ∧
    attempted (run (loop w i s) later) = attempted s ∧
    (loop w i s).status.sent = s.status.sent ∧
    (loop w i s).status.failed = s.status.failed ∧
    (∃ entry ∈ (loop w i s).status.logs, entry.type = "info" ∧ entry.message = stopNotice) ∧
    (loop w i s).status.isRunning = false ∧
    (run (loop w i s) later).status.isRunning = false ∧
    (loop w i s).phase = .finished ∧
    (∀ j, s.phase = .delaying j → j + 1 = i → step w s .delayDone = loop w i s) ∧
    ((run init (stopAfterSecondSuccess a b c d e)).status.isRunning = false ∧
     (run init (stopAfterSecondSuccess a b c d e)).status.sent +
       (run init (stopAfterSecondSuccess a b c d e)).status.failed = 2 ∧
     (run init (stopAfterSecondSuccess a b c d e)).status.sent +
       (run init (stopAfterSecondSuccess a b c d e)).status.failed < 5 ∧
     attempted (run init (stopAfterSecondSuccess a b c d e)) = [a, b]) ∧
    ((run init (stopInThirdSend a b c d e r)).status.isRunning = false ∧
     (run init (stopInThirdSend a b c d e r)).status.sent +
       (run init (stopInThirdSend a b c d e r)).status.failed = 3 ∧
     (run init (stopInThirdSend a b c d e r)).status.sent +
       (run init (stopInThirdSend a b c d e r)).status.failed < 5 ∧
     attempted (run init (stopInThirdSend a b c d e r)) = [a, b, c]) := by
  have hloop : loop w i s = finish w (s.log w 362 .other "info" stopNotice) := by
    unfold loop
    simp [hi, hstop]
  obtain ⟨f1, f2, f3, f4, f5, f6, f7, f8, f9, f10⟩ :=
    finish_facts w (s.log w 362 .other "info" stopNotice)
  obtain ⟨g1, g2, g3, g4, g5⟩ := finished_run later (loop w i s) (by rw [hloop]; exact f2) hlater
  have hatt : attempted (run (loop w i s) later) = attempted (loop w i s) := by
    unfold attempted
    rw [g2]
  refine ⟨?_, ?_, ?_, ?_, ?_, ?_, ?_, ?_, ?_, ?_, ?_⟩
  · rw [hloop, f8]; rfl
  · rw [hatt, hloop, f8]; rfl
  · rw [hloop, f3]; rfl
  · rw [hloop, f4]; rfl
  · rw [hloop]
    refine ⟨{ type := "info", message := stopNotice, timestamp := w.now 362 }, ?_, rfl, rfl⟩
    apply recent_mem (k := 4)
    apply recent_finish
    rw [log_logs]
    exact recent_push _ _
  · rw [hloop]; exact f1
  · rw [g3, hloop]; exact f1
  · rw [hloop]; exact f2
  · intro j hp hj
    subst hj
    simp [step, hp]
  · have hinv := (inv_run (stopAfterSecondSuccess a b c d e)).1
    obtain ⟨hr, hp, hc, hj⟩ := stopAfterSecondSuccess_end a b c d e
    unfold Core at hinv
    rw [hp] at hinv
    obtain ⟨-, -, -, ha, -⟩ := hinv
    refine ⟨hr, hc, by omega, ?_⟩
    rw [ha, hc, hj]
    rfl
  · have hinv := (inv_run (stopInThirdSend a b c d e r)).1
    obtain ⟨hr, hp, hc, hj⟩ := stopInThirdSend_end a b c d e r
    unfold Core at hinv
    rw [hp] at hinv
    obtain ⟨-, -, -, ha, -⟩ := hinv
    refine ⟨hr, hc, by omega, ?_⟩
    rw [ha, hc, hj]
    rfl

/-- C5, on the campaign of two recipients stopped during its first delay: the
second recipient is never tried. -/
theorem stop_halts_the_loop_witness :
    (run init (calmly [.sendEmails (sampleBody ["a@x.org", "b@x.org"]) (.ok ()),
      .verifyDone (.ok ()), .sendMailDone (.ok ()), .stopSending])).status.shouldStop = true ∧
    attempted (loop calm 1 (run init (calmly [.sendEmails (sampleBody ["a@x.org", "b@x.org"])
      (.ok ()), .verifyDone (.ok ()), .sendMailDone (.ok ()), .stopSending]))) =
    attempted (run init (calmly [.sendEmails (sampleBody ["a@x.org", "b@x.org"]) (.ok ()),
      .verifyDone (.ok ()), .sendMailDone (.ok ()), .stopSending])) :=
  ⟨by decide, (stop_halts_the_loop calm 1
    (run init (calmly [.sendEmails (sampleBody ["a@x.org", "b@x.org"]) (.ok ()),
      .verifyDone (.ok ()), .sendMailDone (.ok ()), .stopSending])) [] "" "" "" "" "" (.ok ())
    (by decide) (by decide) (by simp)).1⟩

/-- C6: in every reachable state, whatever the recipient list, the results of
the sends and the moments of the stop requests, the recipients for which
`sendMail` was called are, in call order, an initial segment of the list, and
the whole list once the job has run to its end with `shouldStop` not set.
Every entry held in the log that the loop wrote for a recipient names the
recipient at its loop index in the list: the entry of line 369 for index `i`
has type `info` and the text `[i+1/total] إرسال إلى: ` followed by the `i`-th
address, the entry of line 382 has type `success` and the text
`✅ تم الإرسال بنجاح إلى: ` followed by that address, the entry of line 400
has type `error` and the text `❌ فشل الإرسال إلى: `, that address, ` - ` and
the reason. These entries stand in the log in the order of the loop, without
gap or repetition: their origins are a segment of info 0, outcome 0, info 1,
outcome 1, ..., so that they are sorted by `rank`, the outcome entry of a
recipient coming before every entry of the next one. And the loop does write
them: when it takes up the recipient of index `i` without a stop request, the
newest entry of the log is that info entry and `sendMail` is called for that
address; when the result of a send is recorded, the newest entry is that
success or error entry. -/
theorem log_in_input_order (schedule : List (World × Event)) :
    attempted (run init schedule) <+: (run init schedule).job.emailList ∧
    ((run init schedule).phase = .finished → (run init schedule).status.shouldStop = false →
      attempted (run init schedule) = (run init schedule).job.emailList) ∧
    (run init schedule).origins.length = (run init schedule).status.logs.length ∧
    (∀ entry i, (entry, Origin.info i) ∈
        (run init schedule).status.logs.zip (run init schedule).origins →
      ∃ email, (run init schedule).job.emailList[i]? = some email ∧ entry.type = "info" ∧
        entry.message = "[" ++ toString (i + 1) ++ "/" ++
          toString (run init schedule).job.emailList.length ++ "] إرسال إلى: " ++ email) ∧
    (∀ entry i, (entry, Origin.outcome i) ∈
        (run init schedule).status.logs.zip (run init schedule).origins →
      ∃ email, (run init schedule).job.emailList[i]? = some email ∧
        ((entry.type = "success" ∧ entry.message = "✅ تم الإرسال بنجاح إلى: " ++ email) ∨
         (entry.type = "error" ∧ ∃ error, entry.message =
            "❌ فشل الإرسال إلى: " ++ email ++ " - " ++ sendErrorMsg error))) ∧
    recipientOrigins (run init schedule) <:+:
      loopOrigins (run init schedule).job.emailList.length ∧
    (recipientOrigins (run init schedule)).Pairwise (fun o o' => o.rank < o'.rank) ∧
    (∀ (w : World) (i : Nat) (h : i < (run init schedule).job.emailList.length),
      (run init schedule).status.shouldStop = false →
      (loop w i (run init schedule)).status.logs.getLast? =
        some { type := "info",
               message := "[" ++ toString (i + 1) ++ "/" ++
                 toString (run init schedule).job.emailList.length ++ "] إرسال إلى: " ++
                 (run init schedule).job.emailList[i],
               timestamp := w.now 369 } ∧
      (loop w i (run init schedule)).origins.getLast? = some (.info i) ∧
      attempted (loop w i (run init schedule)) =
        attempted (run init schedule) ++ [(run init schedule).job.emailList[i]]) ∧
    (∀ (w : World) (i : Nat) (email : String),
      (recordOutcome w i email (.ok ()) (run init schedule)).status.logs.getLast? =
        some { type := "success", message := "✅ تم الإرسال بنجاح إلى: " ++ email,
               timestamp := w.now 382 } ∧
      (recordOutcome w i email (.ok ()) (run init schedule)).origins.getLast? =
        some (.outcome i)) ∧
    (∀ (w : World) (i : Nat) (email : String) (error : JsError),
      (recordOutcome w i email (.error error) (run init schedule)).status.logs.getLast? =
        some { type := "error",
               message := "❌ فشل الإرسال إلى: " ++ email ++ " - " ++ sendErrorMsg error,
               timestamp := w.now 400 } ∧
      (recordOutcome w i email (.error error) (run init schedule)).origins.getLast? =
        some (.outcome i)) := by
  obtain ⟨hcore, hlen, -, hnames, hsuf⟩ := inv_run schedule
  generalize run init schedule = s at *
  have hinfix : recipientOrigins s <:+: loopOrigins s.job.emailList.length :=
    (List.IsSuffix.isInfix hsuf).trans (List.IsPrefix.isInfix (expectedOrigins_initial hcore))
  refine ⟨attempted_initial hcore, ?_, hlen, ?_, ?_, hinfix, ?_, ?_, ?_, ?_⟩
  · intro hp hs
    unfold Core at hcore
    rw [hp] at hcore
    obtain ⟨-, -, -, ha, hstop, -⟩ := hcore
    rw [ha, hstop hs, List.take_length]
  · intro entry i hmem
    obtain ⟨email, h1, h2, h3⟩ := hnames (entry, .info i) hmem
    exact ⟨email, h1, h2, h3⟩
  · intro entry i hmem
    obtain ⟨email, h1, h2⟩ := hnames (entry, .outcome i) hmem
    refine ⟨email, h1, ?_⟩
    rcases h2 with ⟨h3, h4⟩ | ⟨h3, error, h4⟩
    · exact Or.inl ⟨h3, h4⟩
    · exact Or.inr ⟨h3, error, by rw [h4]; simp [failureMsg, String.append_assoc]⟩
  · exact (loopOrigins_pairwise _).sublist hinfix.sublist
  · intro w i h hs
    unfold loop
    simp only [h, hs, dite_true]
    refine ⟨?_, ?_, ?_⟩
    · exact getLast?_keep100_push _ _
    · exact getLast?_keep100_push _ _
    · simp [attempted, mailOptions]
  · intro w i email
    exact ⟨getLast?_keep100_push _ _, getLast?_keep100_push _ _⟩
  · intro w i email error
    exact ⟨getLast?_keep100_push _ _, getLast?_keep100_push _ _⟩

/-- C6, on the campaign of two recipients that ran to its end, the second
send refused: both were tried, in the order of the list, and the log holds
their four entries in that order with these texts. -/
theorem log_in_input_order_witness :
    (run init (campaign calm (sampleBody ["a@x.org", "b@x.org"])
      [.ok (), .error rejected550])).phase = .finished ∧
    (run init (campaign calm (sampleBody ["a@x.org", "b@x.org"])
      [.ok (), .error rejected550])).status.shouldStop = false ∧
    attempted (run init (campaign calm (sampleBody ["a@x.org", "b@x.org"])
      [.ok (), .error rejected550])) = ["a@x.org", "b@x.org"] ∧
    (((run init (campaign calm (sampleBody ["a@x.org", "b@x.org"])
      [.ok (), .error rejected550])).status.logs.map
        fun e => (e.type, e.message)).drop 5).take 4 =
      [("info", "[1/2] إرسال إلى: a@x.org"),
       ("success", "✅ تم الإرسال بنجاح إلى: a@x.org"),
       ("info", "[2/2] إرسال إلى: b@x.org"),
       ("error", "❌ فشل الإرسال إلى: b@x.org - خطأ في عنوان الإيميل")] ∧
    ((run init (campaign calm (sampleBody ["a@x.org", "b@x.org"])
      [.ok (), .error rejected550])).origins.drop 5).take 4 =
      [.info 0, .outcome 0, .info 1, .outcome 1] :=
  ⟨by decide, by decide,
   (log_in_input_order (campaign calm (sampleBody ["a@x.org", "b@x.org"])
      [.ok (), .error rejected550])).2.1 (by decide) (by decide),
   by decide, by decide⟩

/-- C10: for every uploaded text the list `uniqueEmails` has no duplicate;
each of its elements is a trimmed line of the text that `isValidEmail`
accepts, and `isValidEmail` accepts exactly the texts without whitespace,
with exactly one `@` after a non-empty local part, and with a domain that has
a `.` neither first nor last in it; every trimmed line that `isValidEmail`
accepts is in the list; and two elements stand in the list in the order in
which they first occur among the trimmed lines. -/
theorem uniqueEmails_valid_distinct_ordered (fileContent : String) :
    (uniqueEmails fileContent).Nodup ∧
    (∀ x ∈ uniqueEmails fileContent,
      isValidEmail x = true ∧ AddressShape x.data ∧ x ∈ trimmedLines fileContent) ∧
    (∀ x : String, isValidEmail x = true ↔ AddressShape x.data) ∧
    (∀ x ∈ trimmedLines fileContent, isValidEmail x = true → x ∈ uniqueEmails fileContent) ∧
    (∀ a ∈ uniqueEmails fileContent, ∀ b ∈ uniqueEmails fileContent,
      (List.indexOf a (uniqueEmails fileContent) < List.indexOf b (uniqueEmails fileContent) ↔
        List.indexOf a (trimmedLines fileContent) < List.indexOf b (trimmedLines fileContent))) := by
  refine ⟨uniqueOf_nodup _, ?_, isValidEmail_iff_shape, ?_, ?_⟩
  · intro x hx
    have hm := List.mem_filter.1 ((mem_uniqueOf _ _).1 hx)
    have hv : isValidEmail x = true := by
      have := hm.2
      simp only [Bool.and_eq_true] at this
      exact this.2
    exact ⟨hv, (isValidEmail_iff_shape x).1 hv, hm.1⟩
  · intro x hx hv
    refine (mem_uniqueOf _ _).2 (List.mem_filter.2 ⟨hx, ?_⟩)
    simp only [Bool.and_eq_true, bne_iff_ne, ne_eq]
    exact ⟨isValidEmail_ne_empty x hv, hv⟩
  · intro a ha b hb
    exact uniqueOf_filter_order _ _ a b ha hb

/-- C10, on a text with a repeated address, blank lines, a padded line and
lines that are not addresses. -/
theorem uniqueEmails_valid_distinct_ordered_witness :
    uniqueEmails "b@x.org\r\n\n  a@x.org \nnot an address\nb@x.org\n@x.org\na@x.\n" =
      ["b@x.org", "a@x.org"] ∧
    isValidEmail "a@x.org" = true ∧
    "a@x.org" ∈ uniqueEmails
      "b@x.org\r\n\n  a@x.org \nnot an address\nb@x.org\n@x.org\na@x.\n" :=
  ⟨by decide, by decide,
   (uniqueEmails_valid_distinct_ordered
      "b@x.org\r\n\n  a@x.org \nnot an address\nb@x.org\n@x.org\na@x.\n").2.2.2.1
      "a@x.org" (by decide) (by decide)⟩

end EmailSender
